import Mathlib

/-!
Mangi Properties backend: a shallow embedding of `index.js`.

The Express application of `src/index.js` is embedded as pure functions over an
explicit server state.  Every route handler takes the answers of the external
collaborators for that request (`Services`), the request and the state, and
returns the reply, the new state and the list of external operations it issued.

* JavaScript values are `JSVal` (the JSON primitives; numbers are the integers).
* JavaScript objects are `Obj`, association lists in insertion order.
* The document database, the blob store and the token library are external to
  the repository; they are modelled from the contract the specification gives.
  A write to the database resolves when the database answers and its client
  accepts the payload; the client rejects a payload holding `undefined`, and a
  `null` stands for no data.
* Numbers computed in binary64 (`Math.random`, the one-time password) are
  modelled by exact rounding of dyadic numerators.
-/

set_option autoImplicit false

deriving instance DecidableEq for Except

namespace MangiBackend

/-! ## JavaScript values and objects -/

/-- JavaScript values carried by request bodies and stored fields: `undefined`,
`null`, booleans, integer numbers and strings. -/
inductive JSVal where
  | undefined
  | null
  | bool (b : Bool)
  | num (n : Int)
  | str (s : String)
  deriving DecidableEq, Repr

namespace JSVal

/-- Truthiness, as tested by `!v`, `if (v)` and `v || d`. -/
def truthy : JSVal → Bool
  | undefined => false
  | null => false
  | bool b => b
  | num n => n != 0
  | str s => s != ""

/-- The JavaScript expression `a || b`. -/
def or (a b : JSVal) : JSVal :=
  if a.truthy then a else b

/-- The method call `v.toString()`: a `TypeError` on `undefined` and `null`. -/
def toStr : JSVal → Except String String
  | undefined => .error "TypeError: Cannot read properties of undefined (reading toString)"
  | null => .error "TypeError: Cannot read properties of null (reading toString)"
  | bool b => .ok (if b then "true" else "false")
  | num n => .ok (toString n)
  | str s => .ok s

end JSVal

/-- A JavaScript object: its own properties in insertion order. -/
abbrev Obj := List (String × JSVal)

namespace Obj

/-- Property read `o[k]`: `undefined` when the object has no such property. -/
def get : Obj → String → JSVal
  | [], _ => JSVal.undefined
  | (k', v) :: rest, k => if k' = k then v else get rest k

/-- Whether `k` is an own property of the object. -/
def hasKey : Obj → String → Bool
  | [], _ => false
  | (k', _) :: rest, k => if k' = k then true else hasKey rest k

/-- Property write `o[k] = v`: overwrites in place, or appends a new property. -/
def set : Obj → String → JSVal → Obj
  | [], k, v => [(k, v)]
  | (k', v') :: rest, k, v => if k' = k then (k', v) :: rest else (k', v') :: set rest k v

/-- Property removal: the object without the property `k`. -/
def erase : Obj → String → Obj
  | [], _ => []
  | (k', v) :: rest, k => if k' = k then erase rest k else (k', v) :: erase rest k

/-- Object spread `{ ...base, ...src }`: every own property of `src`, read
from `src`, is written onto `base`. -/
def spread (base src : Obj) : Obj :=
  src.foldl (fun o kv => set o kv.1 (get src kv.1)) base

end Obj

/-! ## Strings -/

/-- Split a character list at every occurrence of `sep`, keeping empty
segments; the result is never empty. -/
def splitOnChar (sep : Char) : List Char → List (List Char)
  | [] => [[]]
  | c :: cs =>
    match splitOnChar sep cs with
    | [] => [[]]
    | seg :: segs => if c = sep then [] :: seg :: segs else (c :: seg) :: segs

/-- The JavaScript call `s.split(" ")`. -/
def jsSplitSpace (s : String) : List String :=
  (splitOnChar ' ' s.data).map String.mk

/-- Array read `a[i]`: `undefined` past the end. -/
def jsIndex (a : List String) (i : Nat) : JSVal :=
  match a.get? i with
  | some x => JSVal.str x
  | none => JSVal.undefined

/-! ## The token library (external) -/

/-- The claims a decoded bearer token carries: the payload `{ email }` signed
by `/verify-otp`, with the issue and expiry instants in whole seconds. -/
structure Claims where
  email : String
  iat : Nat
  exp : Nat
  deriving DecidableEq, Repr

/-- Modelled from the spec: the token library `jsonwebtoken` is not part of the
repository.  A bearer token is an opaque signed string encoding its claims;
here a token is its claims together with the secret it was signed under (an
ideal signature: it verifies under that secret and no other). -/
structure Token where
  claims : Claims
  key : String
  deriving DecidableEq, Repr

/-- Modelled from the spec: the compact serialization of the token library
`jsonwebtoken`, kept abstract.  The routes only move the serialized string around. -/
structure JwtCodec where
  encode : Token → String
  decode : String → Option Token

/-- Modelled from the spec: `jwt.sign(payload, secret, { expiresIn })` of the
token library `jsonwebtoken`, at clock reading `clock` (seconds): the token is
valid for `expiresIn` seconds from issuance. -/
def jwtSign (codec : JwtCodec) (email : String) (secret : String) (expiresIn : Nat)
    (clock : Nat) : String :=
  codec.encode { claims := { email := email, iat := clock, exp := clock + expiresIn }, key := secret }

/-- Modelled from the spec: `jwt.verify(token, secret, callback)` of the token
library `jsonwebtoken`, at clock reading `clock`: the token is verified by
signature and expiry.  The callback receives either an error or the decoded
claims. -/
def jwtVerify (codec : JwtCodec) (token : JSVal) (secret : String) (clock : Nat) :
    Except String Claims :=
  match token with
  | JSVal.str t =>
    match codec.decode t with
    | none => .error "jwt malformed"
    | some tok =>
      if tok.key ≠ secret then .error "invalid signature"
      else if clock ≥ tok.claims.exp then .error "jwt expired"
      else .ok tok.claims
  | JSVal.undefined => .error "jwt must be provided"
  | _ => .error "jwt must be a string"

/-! ## Configuration, requests, replies, state -/

/-- The process environment read at start-up, and the token library in use. -/
structure Env where
  /-- The value of `process.env.SECRET_TOKEN_KEY`. -/
  secretToken : String
  /-- The value of `process.env.USER_EMAIL`. -/
  userEmail : String
  jwt : JwtCodec

/-- An uploaded file (`req.files.image`): its name and bytes. -/
structure UploadedFile where
  name : String
  data : List Nat
  deriving DecidableEq, Repr

/-- The parts of an Express request the routes read. -/
structure Request where
  /-- The header `req.headers[authorization]`, when present. -/
  authorization : Option String
  /-- The route parameter `req.params.id`. -/
  id : String
  /-- The parsed body `req.body`. -/
  body : Obj
  /-- The upload `req.files?.image`, when present. -/
  image : Option UploadedFile
  /-- The field `req.user`, set by the authentication middleware. -/
  user : Option Claims
  deriving DecidableEq, Repr

/-- Response bodies the routes send. -/
inductive ResBody where
  /-- A plain string, `res.send("...")`. -/
  | text (s : String)
  /-- The object `{ message }`. -/
  | message (m : String)
  /-- The object `{ token }`. -/
  | token (t : String)
  /-- The object `{ message, property }`. -/
  | withProperty (m : String) (property : Obj)
  /-- An array of objects (or `null` entries). -/
  | properties (ps : List (Option Obj))
  /-- A single value: a record, or `null`. -/
  | value (v : Option Obj)
  deriving DecidableEq, Repr

/-- What a handler does to the response: it sends a status and a body, or it
throws synchronously and leaves the exception to the framework. -/
inductive Reply where
  | sent (status : Nat) (body : ResBody)
  | threw (error : String)
  deriving DecidableEq, Repr

/-- The `properties` collection of the document database, in the order a full
scan yields the records; each record is stored under its key. -/
abbrev Db := List (String × Obj)

/-- The mutable state the routes act on: the `properties` collection, the blob
store (path and bytes of every stored blob) and the in-memory `otpDB`. -/
structure State where
  properties : Db
  blobs : List (String × List Nat)
  otpDB : List (String × Nat)
  deriving DecidableEq, Repr

/-- The answers of the external collaborators during one request. -/
structure Services where
  /-- The clock of the token library, in whole seconds. -/
  clock : Nat
  /-- The value of `Date.now()`, in milliseconds. -/
  dateNow : Nat
  /-- The blob store: `none` when `put` rejects, otherwise `response.url`. -/
  putUrl : Option JSVal
  /-- Whether the database read of this request resolves. -/
  dbReadOk : Bool
  /-- Whether the database answers the write of this request. -/
  dbWriteOk : Bool
  /-- The key `push()` generates. -/
  pushKey : String
  /-- The value of `Math.random()` as a numerator over `2 ^ 53`. -/
  random : Nat
  /-- Whether the mail transport delivers. -/
  mailOk : Bool
  deriving DecidableEq, Repr

/-- An operation issued to an external collaborator. -/
inductive Effect where
  | blobPut (path : String) (data : List Nat)
  | dbReadAll
  | dbRead (id : String)
  | dbSet (key : String) (value : Obj)
  | dbUpdate (id : String) (updates : Obj)
  | dbRemove (id : String)
  | sendMail (recipient : String) (text : String)
  deriving DecidableEq, Repr

/-- The result of running a handler. -/
structure Outcome where
  reply : Reply
  state : State
  effects : List Effect
  deriving DecidableEq, Repr

/-- The result of running a guarded route: the outcome, and the requests that
`next()` handed to the route handler, in order. -/
structure Served where
  outcome : Outcome
  invocations : List Request
  deriving DecidableEq, Repr

/-! ## The document database (external) -/

/-- Modelled from the spec: the document database behind `admin.database()` is
not part of the repository; this is its read-by-key, `once(value)` followed by
`val()` on `properties/<id>`: the record stored under `id`, or nothing (`null`)
when no record is stored there. -/
def dbGet : Db → String → Option Obj
  | [], _ => none
  | (k, r) :: rest, id => if k = id then some r else dbGet rest id

/-- Modelled from the spec: the validation the client of the document database
applies to a value handed to `set` or `update`: a value holding `undefined` in
one of its properties is rejected and the call throws. -/
def accepts (o : Obj) : Bool :=
  o.all (fun kv => decide (kv.2 ≠ JSVal.undefined))

/-- Modelled from the spec: whether a write of `payload` to the document
database resolves: the database answers and its client accepts the payload. -/
def writeResolves (svc : Services) (payload : Obj) : Bool :=
  svc.dbWriteOk && accepts payload

/-- Modelled from the spec: what the document database keeps of an object it is
given.  The value `null` stands for no data; a property holding it is not stored. -/
def storable (o : Obj) : Obj :=
  o.filter (fun kv => kv.2 ≠ JSVal.null)

/-- Modelled from the spec: `set` of the document database on a pushed
reference: write the record under `key`, replacing the record already stored
there or adding a new one at the end of the scan order. -/
def dbSet : Db → String → Obj → Db
  | [], key, value => [(key, storable value)]
  | (k, r) :: rest, key, value =>
    if k = key then (k, storable value) :: rest else (k, r) :: dbSet rest key value

/-- Modelled from the spec: the partial merge the document database applies on
`update`.  Only the properties of the payload are written, a `null` removing
the stored property; every other property of the stored record survives. -/
def mergeRecord (stored updates : Obj) : Obj :=
  updates.foldl
    (fun o kv => if kv.2 = JSVal.null then Obj.erase o kv.1 else Obj.set o kv.1 kv.2) stored

/-- Modelled from the spec: `update` of the document database on
`properties/<id>`: a partial merge into the record stored under `id` (into an
empty record when none is stored). -/
def dbUpdate : Db → String → Obj → Db
  | [], id, updates => [(id, mergeRecord [] updates)]
  | (k, r) :: rest, id, updates =>
    if k = id then (k, mergeRecord r updates) :: rest else (k, r) :: dbUpdate rest id updates

/-- Modelled from the spec: `remove` of the document database on
`properties/<id>`, delete-by-key. -/
def dbRemove : Db → String → Db
  | [], _ => []
  | (k, r) :: rest, id => if k = id then dbRemove rest id else (k, r) :: dbRemove rest id

/-! ## Property routes -/

/-- The function `updateImagePath` of `index.js`. -/
def updateImagePath (property : Option Obj) : Option Obj :=
  match property with
  | none => none
  | some p =>
    if !(p.get "imageUrl").truthy then some p
    else some (Obj.set (Obj.spread [] p) "imageUrl" (p.get "imageUrl"))

/-- The upload path built from `Date.now()` and the file name. -/
def imagePathOf (svc : Services) (image : UploadedFile) : String :=
  "uploads/" ++ toString svc.dateNow ++ "_" ++ image.name

/-- The object literal `propertyData` of `POST /properties`. -/
def propertyDataOf (body : Obj) (imageUrl : JSVal) : Obj :=
  [ ("name", body.get "name"),
    ("location", body.get "location"),
    ("description", body.get "description"),
    ("price", (body.get "price").or (JSVal.num 0)),
    ("bedrooms", (body.get "bedrooms").or (JSVal.num 0)),
    ("bathrooms", (body.get "bathrooms").or (JSVal.num 0)),
    ("propertyType", (body.get "propertyType").or (JSVal.str "Rent")),
    ("period", (body.get "period").or (JSVal.str "")),
    ("imageUrl", imageUrl) ]

/-- The handler of `POST /properties`. -/
def postProperties (svc : Services) (req : Request) (s : State) : Outcome :=
  match req.image with
  | none => { reply := .sent 400 (.text "No image file was uploaded."), state := s, effects := [] }
  | some image =>
    let imagePath := imagePathOf svc image
    match svc.putUrl with
    | none =>
      { reply := .sent 500 (.text "Failed to add the property."), state := s,
        effects := [.blobPut imagePath image.data] }
    | some imageUrl =>
      let s1 := { s with blobs := s.blobs ++ [(imagePath, image.data)] }
      if !imageUrl.truthy then
        { reply := .sent 500 (.text "Failed to upload the image."), state := s1,
          effects := [.blobPut imagePath image.data] }
      else
        let propertyData := propertyDataOf req.body imageUrl
        if writeResolves svc propertyData then
          { reply := .sent 200 (.withProperty "Property added successfully" propertyData),
            state := { s1 with properties := dbSet s1.properties svc.pushKey propertyData },
            effects := [.blobPut imagePath image.data, .dbSet svc.pushKey propertyData] }
        else
          { reply := .sent 500 (.text "Failed to add the property."), state := s1,
            effects := [.blobPut imagePath image.data, .dbSet svc.pushKey propertyData] }

/-- The array built by `snapshot.forEach` in `GET /properties`. -/
def listProperties (db : Db) : List (Option Obj) :=
  db.map (fun child => updateImagePath (some (Obj.spread [("id", JSVal.str child.1)] child.2)))

/-- The handler of `GET /properties`. -/
def getProperties (svc : Services) (_req : Request) (s : State) : Outcome :=
  if svc.dbReadOk then
    { reply := .sent 200 (.properties (listProperties s.properties)), state := s,
      effects := [.dbReadAll] }
  else
    { reply := .sent 500 (.text "Failed to fetch properties."), state := s,
      effects := [.dbReadAll] }

/-- The handler of `GET /properties/:id`. -/
def getProperty (svc : Services) (req : Request) (s : State) : Outcome :=
  if svc.dbReadOk then
    { reply := .sent 200 (.value (dbGet s.properties req.id)), state := s,
      effects := [.dbRead req.id] }
  else
    { reply := .sent 500 (.text "Failed to fetch property."), state := s,
      effects := [.dbRead req.id] }

/-- The object `updates` of `PUT /properties/:id`, given the value of the
local `imageUrl` (`null` unless an image was uploaded). -/
def updatesOf (body : Obj) (imageUrl : JSVal) : Obj :=
  let updates : Obj :=
    [ ("name", body.get "name"),
      ("location", body.get "location"),
      ("description", body.get "description"),
      ("price", (body.get "price").or (JSVal.num 0)),
      ("bedrooms", (body.get "bedrooms").or (JSVal.num 0)),
      ("bathrooms", (body.get "bathrooms").or (JSVal.num 0)),
      ("propertyType", (body.get "propertyType").or (JSVal.str "Rent")),
      ("period", (body.get "period").or (JSVal.str "")) ]
  if imageUrl.truthy then Obj.set updates "imageUrl" imageUrl else updates

/-- The last step of `PUT /properties/:id`: the database update and the reply. -/
def putPropertyUpdate (svc : Services) (req : Request) (s : State) (imageUrl : JSVal)
    (effects : List Effect) : Outcome :=
  let updates := updatesOf req.body imageUrl
  if writeResolves svc updates then
    { reply := .sent 200 (.withProperty "Property updated successfully." updates),
      state := { s with properties := dbUpdate s.properties req.id updates },
      effects := effects ++ [.dbUpdate req.id updates] }
  else
    { reply := .sent 500 (.text "Failed to update property."), state := s,
      effects := effects ++ [.dbUpdate req.id updates] }

/-- The handler of `PUT /properties/:id`. -/
def putProperty (svc : Services) (req : Request) (s : State) : Outcome :=
  match req.image with
  | none => putPropertyUpdate svc req s JSVal.null []
  | some image =>
    let imagePath := imagePathOf svc image
    match svc.putUrl with
    | none =>
      { reply := .sent 500 (.text "Failed to update property."), state := s,
        effects := [.blobPut imagePath image.data] }
    | some url =>
      putPropertyUpdate svc req { s with blobs := s.blobs ++ [(imagePath, image.data)] } url
        [.blobPut imagePath image.data]

/-- The handler of `DELETE /properties/:id`. -/
def deleteProperty (svc : Services) (req : Request) (s : State) : Outcome :=
  if svc.dbReadOk then
    match dbGet s.properties req.id with
    | none =>
      { reply := .sent 404 (.message "Property not found."), state := s,
        effects := [.dbRead req.id] }
    | some _ =>
      if svc.dbWriteOk then
        { reply := .sent 200 (.message "Property deleted successfully."),
          state := { s with properties := dbRemove s.properties req.id },
          effects := [.dbRead req.id, .dbRemove req.id] }
      else
        { reply := .sent 500 (.text "Failed to delete property."), state := s,
          effects := [.dbRead req.id, .dbRemove req.id] }
  else
    { reply := .sent 500 (.text "Failed to delete property."), state := s,
      effects := [.dbRead req.id] }

/-! ## Authentication -/

/-- The middleware `authenticateToken`.  The continuation `next` is the route
handler; the requests it is called with are recorded. -/
def authenticateToken (env : Env) (svc : Services) (req : Request) (s : State)
    (next : Request → State → Outcome) : Served :=
  match req.authorization with
  | none =>
    { outcome := { reply := .sent 401 (.message "Authorization token not found"), state := s,
                   effects := [] },
      invocations := [] }
  | some header =>
    if header = "" then
      { outcome := { reply := .sent 401 (.message "Authorization token not found"), state := s,
                     effects := [] },
        invocations := [] }
    else
      let token := jsIndex (jsSplitSpace header) 1
      match jwtVerify env.jwt token env.secretToken svc.clock with
      | .error _ =>
        { outcome := { reply := .sent 401 (.message "Invalid token"), state := s, effects := [] },
          invocations := [] }
      | .ok decoded =>
        let req1 := { req with user := some decoded }
        { outcome := next req1 s, invocations := [req1] }

/-- The routes registered with `authenticateToken`. -/
inductive GuardedRoute where
  | postProperties
  | getProperties
  | getProperty
  | putProperty
  | deleteProperty
  deriving DecidableEq, Repr

/-- The handler registered for a guarded route. -/
def GuardedRoute.handler : GuardedRoute → Services → Request → State → Outcome
  | .postProperties => MangiBackend.postProperties
  | .getProperties => MangiBackend.getProperties
  | .getProperty => MangiBackend.getProperty
  | .putProperty => MangiBackend.putProperty
  | .deleteProperty => MangiBackend.deleteProperty

/-- A request to a guarded route: the middleware, then the handler. -/
def serve (env : Env) (svc : Services) (route : GuardedRoute) (req : Request) (s : State) :
    Served :=
  authenticateToken env svc req s (route.handler svc)

/-! ## One-time passwords and tokens -/

/-- Rounding to binary64: the numerator `n` of a non-negative dyadic number
rounded to 53 significant bits, ties to even (the denominator is unchanged). -/
def roundBinary64 (n : Nat) : Nat :=
  let shift := (Nat.log2 n + 1) - 53
  let q := n / 2 ^ shift
  let rem := n % 2 ^ shift
  let half := 2 ^ shift / 2
  if rem > half ∨ (rem = half ∧ q % 2 = 1 ∧ 0 < shift) then (q + 1) * 2 ^ shift
  else q * 2 ^ shift

/-- The expression `Math.floor(100000 + Math.random() * 900000)` in binary64
arithmetic, for `Math.random()` equal to `random / 2 ^ 53`: the product is
rounded, then the sum is rounded, then the floor is taken. -/
def otpOf (random : Nat) : Nat :=
  roundBinary64 (100000 * 2 ^ 53 + roundBinary64 (random * 900000)) / 2 ^ 53

/-- The read `otpDB[email]`. -/
def otpGet : List (String × Nat) → String → Option Nat
  | [], _ => none
  | (k, v) :: rest, email => if k = email then some v else otpGet rest email

/-- The write `otpDB[email] = otp`. -/
def otpSet : List (String × Nat) → String → Nat → List (String × Nat)
  | [], email, otp => [(email, otp)]
  | (k, v) :: rest, email, otp =>
    if k = email then (k, otp) :: rest else (k, v) :: otpSet rest email otp

/-- The handler of `POST /generate-otp`. -/
def generateOtp (env : Env) (svc : Services) (_req : Request) (s : State) : Outcome :=
  let email := env.userEmail
  let otp := otpOf svc.random
  let s1 := { s with otpDB := otpSet s.otpDB email otp }
  let mail := Effect.sendMail email ("Your OTP for Real Estate Management is: " ++ toString otp)
  if svc.mailOk then
    { reply := .sent 200 (.message "OTP sent successfully"), state := s1, effects := [mail] }
  else
    { reply := .sent 500 (.message "Failed to send OTP"), state := s1, effects := [mail] }

/-- The handler of `POST /verify-otp`. -/
def verifyOtp (env : Env) (svc : Services) (req : Request) (s : State) : Outcome :=
  let otp := req.body.get "otp"
  let email := env.userEmail
  match otpGet s.otpDB email with
  | none => { reply := .sent 401 (.message "Invalid OTP"), state := s, effects := [] }
  | some storedOTP =>
    if storedOTP = 0 then
      { reply := .sent 401 (.message "Invalid OTP"), state := s, effects := [] }
    else
      match otp.toStr with
      | .error e => { reply := .threw e, state := s, effects := [] }
      | .ok submitted =>
        if toString storedOTP = submitted then
          { reply := .sent 200 (.token (jwtSign env.jwt email env.secretToken 7200 svc.clock)),
            state := s, effects := [] }
        else
          { reply := .sent 401 (.message "Invalid OTP"), state := s, effects := [] }

/-- The handler of `POST /verify-token`. -/
def verifyToken (env : Env) (svc : Services) (req : Request) (s : State) : Outcome :=
  match jwtVerify env.jwt (req.body.get "token") env.secretToken svc.clock with
  | .error _ => { reply := .sent 401 (.message "Invalid token"), state := s, effects := [] }
  | .ok _ => { reply := .sent 200 (.message "Token verified"), state := s, effects := [] }

/-! ## Helpers for stating the properties -/

/-- The HTTP status of a reply, when one was sent. -/
def Reply.status : Reply → Option Nat
  | .sent status _ => some status
  | .threw _ => none

/-- A token codec used to evaluate the routes on concrete requests: the string
`tok` decodes to a token for `admin@mangi.test` signed under `s3cret`, issued at
second 1000 and expiring at second 8200; nothing else decodes. -/
def sampleCodec : JwtCodec :=
  { encode := fun _ => "tok"
    decode := fun t =>
      if t = "tok" then
        some { claims := { email := "admin@mangi.test", iat := 1000, exp := 8200 }, key := "s3cret" }
      else none }

/-- A configuration used to evaluate the routes on concrete requests. -/
def sampleEnv : Env :=
  { secretToken := "s3cret", userEmail := "admin@mangi.test", jwt := sampleCodec }

/-- Collaborators that all answer, at second 2000. -/
def sampleServices : Services :=
  { clock := 2000, dateNow := 2000000, putUrl := some (JSVal.str "https://blob.test/a.png"),
    dbReadOk := true, dbWriteOk := true, pushKey := "-Nkey2", random := 0, mailOk := true }

/-- A stored record. -/
def sampleRecord : Obj :=
  [ ("name", JSVal.str "Villa"), ("location", JSVal.str "Nairobi"),
    ("description", JSVal.str "Sea view"), ("price", JSVal.num 500),
    ("bedrooms", JSVal.num 3), ("bathrooms", JSVal.num 2),
    ("propertyType", JSVal.str "Sale"), ("period", JSVal.str "month"),
    ("imageUrl", JSVal.str "https://blob.test/old.png") ]

/-- A state with one stored record. -/
def sampleState : State :=
  { properties := [("-Nkey1", sampleRecord)], blobs := [], otpDB := [] }

/-- A request carrying a valid bearer header and nothing else. -/
def sampleRequest : Request :=
  { authorization := some "Bearer tok", id := "-Nkey1", body := [], image := none, user := none }

/-- Whether the request is authenticated: it carries an Authorization header
whose second segment verifies under the signing secret. -/
def authenticated (env : Env) (svc : Services) (req : Request) : Bool :=
  match req.authorization with
  | none => false
  | some header =>
    match jwtVerify env.jwt (jsIndex (jsSplitSpace header) 1) env.secretToken svc.clock with
    | .ok _ => true
    | .error _ => false

/-- The own property names of an object, in order. -/
def Obj.keys (o : Obj) : List String :=
  o.map Prod.fst

/-- An uploaded image. -/
def sampleImage : UploadedFile :=
  { name := "a.png", data := [137, 80, 78, 71] }

/-- The field names of a property record in the data model. -/
def propertyFields : List String :=
  ["name", "location", "description", "price", "bedrooms", "bathrooms", "propertyType",
    "period", "imageUrl"]

/-- Whether an object is a property record: its properties are fields of the data model. -/
def isPropertyRecord (r : Obj) : Bool :=
  (Obj.keys r).all (fun k => decide (k ∈ propertyFields))

/-- Whether every record of the collection is a property record. -/
def isPropertyCollection (db : Db) : Bool :=
  db.all (fun kr => isPropertyRecord kr.2)

/-- The reading of the specification for a defaulted field: the supplied
value, or the default when the body does not supply the field. -/
def suppliedOrDefault (body : Obj) (k : String) (d : JSVal) : JSVal :=
  if Obj.hasKey body k then Obj.get body k else d

/-- A create request with an image, a name, a location and a description. -/
def createRequest : Request :=
  { sampleRequest with
    body := [("name", JSVal.str "A"), ("location", JSVal.str "B"),
             ("description", JSVal.str "D")],
    image := some sampleImage }

/-- A create request with an image, a name and a location, and no description. -/
def bareRequest : Request :=
  { sampleRequest with
    body := [("name", JSVal.str "A"), ("location", JSVal.str "B")], image := some sampleImage }

/-- A create request with an image whose form leaves `propertyType` empty. -/
def emptyTypeRequest : Request :=
  { sampleRequest with
    body := [("name", JSVal.str "A"), ("location", JSVal.str "B"),
             ("description", JSVal.str "D"), ("propertyType", JSVal.str "")],
    image := some sampleImage }

/-- An update request without an image that supplies the three text fields only. -/
def renameRequest : Request :=
  { sampleRequest with
    body := [("name", JSVal.str "Villa"), ("location", JSVal.str "Nairobi"),
             ("description", JSVal.str "Sea view")] }

/-- An update request with an image whose body supplies the location only. -/
def relocateRequest : Request :=
  { sampleRequest with
    body := [("location", JSVal.str "Mombasa")], image := some sampleImage }

/-- A state whose stored record has a property named `id` of its own. -/
def ownIdState : State :=
  { properties := [("-Nkey1", [("id", JSVal.str "legacy-7"), ("name", JSVal.str "Villa")])],
    blobs := [], otpDB := [] }

/-- The stored value of field `k` of the record under `id`, when a record is stored there. -/
def storedField (s : State) (id : String) (k : String) : Option JSVal :=
  (dbGet s.properties id).map (fun r => Obj.get r k)

/-- A state in which the code 100000 is stored for the configured email. -/
def otpState : State :=
  { sampleState with otpDB := [("admin@mangi.test", 100000)] }

/-- A verify-otp request submitting the code 100000 as a string. -/
def otpRequest : Request :=
  { authorization := none, id := "", body := [("otp", JSVal.str "100000")], image := none,
    user := none }

/-- A request whose body is the empty object. -/
def emptyBodyRequest : Request :=
  { authorization := none, id := "", body := [], image := none, user := none }

/-- The token `/verify-otp` signs at clock reading `clock`: the payload
`{ email }` for the configured email, valid for 2 hours, under the configured secret. -/
def issuedToken (env : Env) (clock : Nat) : Token :=
  { claims := { email := env.userEmail, iat := clock, exp := clock + 7200 },
    key := env.secretToken }

/-- A verify-token request submitting the string `tok`. -/
def tokenRequest : Request :=
  { authorization := none, id := "", body := [("token", JSVal.str "tok")], image := none,
    user := none }

/-- A handler that replies 200 with the email attached to the request. -/
def echoUser (req : Request) (s : State) : Outcome :=
  { reply := .sent 200 (.message ((req.user.map Claims.email).getD "")), state := s,
    effects := [] }

/-! ## Theorems -/

/-! ### Objects -/

theorem Obj.get_set (o : Obj) (k k' : String) (v : JSVal) :
    Obj.get (Obj.set o k v) k' = if k = k' then v else Obj.get o k' := by
  induction o with
  | nil => simp [Obj.set, Obj.get]
  | cons kv rest ih =>
    obtain ⟨a, b⟩ := kv
    by_cases h : a = k
    · subst h
      by_cases h' : a = k' <;> simp [Obj.set, Obj.get, h']
    · by_cases h' : a = k'
      · subst h'
        simp [Obj.set, Obj.get, h, Ne.symm h]
      · simp [Obj.set, Obj.get, h, h', ih]

theorem Obj.hasKey_set (o : Obj) (k k' : String) (v : JSVal) :
    Obj.hasKey (Obj.set o k v) k' = (decide (k = k') || Obj.hasKey o k') := by
  induction o with
  | nil => simp [Obj.set, Obj.hasKey]
  | cons kv rest ih =>
    obtain ⟨a, b⟩ := kv
    by_cases h : a = k
    · subst h
      by_cases h' : a = k' <;> simp [Obj.set, Obj.hasKey, h']
    · by_cases h' : a = k'
      · subst h'
        simp [Obj.set, Obj.hasKey, h]
      · simp [Obj.set, Obj.hasKey, h, h', ih]

theorem Obj.get_of_hasKey_false (o : Obj) (k : String) (h : Obj.hasKey o k = false) :
    Obj.get o k = JSVal.undefined := by
  induction o with
  | nil => rfl
  | cons kv rest ih =>
    obtain ⟨a, b⟩ := kv
    by_cases h' : a = k
    · simp [Obj.hasKey, h'] at h
    · simp [Obj.hasKey, h'] at h
      simp [Obj.get, h', ih h]

theorem Obj.hasKey_eq_true_iff (o : Obj) (k : String) :
    Obj.hasKey o k = true ↔ k ∈ Obj.keys o := by
  induction o with
  | nil => simp [Obj.hasKey, Obj.keys]
  | cons kv rest ih =>
    obtain ⟨a, b⟩ := kv
    by_cases h' : a = k
    · simp [Obj.hasKey, Obj.keys, h']
    · have hne : ¬ k = a := fun e => h' e.symm
      have hk : Obj.keys ((a, b) :: rest) = a :: Obj.keys rest := rfl
      rw [hk, List.mem_cons]
      simp only [Obj.hasKey, h', if_false, hne, false_or]
      exact ih

/-- Writing a list of properties one by one: a key outside the list keeps its value. -/
theorem Obj.get_foldl_set_of_not_mem (l : Obj) (o : Obj) (k : String)
    (h : k ∉ Obj.keys l) :
    Obj.get (l.foldl (fun o kv => Obj.set o kv.1 kv.2) o) k = Obj.get o k := by
  induction l generalizing o with
  | nil => rfl
  | cons kv rest ih =>
    simp only [Obj.keys, List.map_cons, List.mem_cons, not_or] at h
    simp only [List.foldl_cons]
    rw [ih _ (by simpa [Obj.keys] using h.2), Obj.get_set]
    simp [Ne.symm h.1]

/-- Spreading `src` onto `base`: the properties of `src` win, the others are those of `base`. -/
theorem Obj.get_spread (base src : Obj) (k : String) :
    Obj.get (Obj.spread base src) k
      = if Obj.hasKey src k then Obj.get src k else Obj.get base k := by
  unfold Obj.spread
  suffices H : ∀ (l : Obj) (o : Obj),
      Obj.get (l.foldl (fun o kv => Obj.set o kv.1 (Obj.get src kv.1)) o) k
        = if Obj.hasKey l k then Obj.get src k else Obj.get o k from H src base
  intro l
  induction l with
  | nil => intro o; simp [Obj.hasKey]
  | cons kv rest ih =>
    intro o
    obtain ⟨a, b⟩ := kv
    simp only [List.foldl_cons]
    rw [ih, Obj.get_set]
    by_cases h : a = k
    · subst h
      simp [Obj.hasKey]
    · simp [Obj.hasKey, h]

theorem Obj.get_spread_nil (p : Obj) (k : String) :
    Obj.get (Obj.spread [] p) k = Obj.get p k := by
  rw [Obj.get_spread]
  cases h : Obj.hasKey p k
  · simp [Obj.get, Obj.get_of_hasKey_false p k h]
  · simp

/-! ### The database -/

theorem dbGet_dbSet_self (db : Db) (key : String) (value : Obj) :
    dbGet (dbSet db key value) key = some (storable value) := by
  induction db with
  | nil => simp [dbSet, dbGet]
  | cons kr rest ih =>
    obtain ⟨a, r⟩ := kr
    by_cases h : a = key
    · simp [dbSet, dbGet, h]
    · simp [dbSet, dbGet, h, ih]

theorem dbGet_dbUpdate_self (db : Db) (id : String) (updates : Obj) :
    dbGet (dbUpdate db id updates) id
      = some (mergeRecord ((dbGet db id).getD []) updates) := by
  induction db with
  | nil => simp [dbUpdate, dbGet]
  | cons kr rest ih =>
    obtain ⟨a, r⟩ := kr
    by_cases h : a = id
    · simp [dbUpdate, dbGet, h]
    · simp [dbUpdate, dbGet, h, ih]

theorem dbGet_dbUpdate_other (db : Db) (id id' : String) (updates : Obj) (h : id' ≠ id) :
    dbGet (dbUpdate db id updates) id' = dbGet db id' := by
  induction db with
  | nil => simp [dbUpdate, dbGet, Ne.symm h]
  | cons kr rest ih =>
    obtain ⟨a, r⟩ := kr
    by_cases h1 : a = id
    · subst h1
      simp [dbUpdate, dbGet, Ne.symm h]
    · by_cases h2 : a = id'
      · subst h2
        simp [dbUpdate, dbGet, h1]
      · simp [dbUpdate, dbGet, h1, h2, ih]

theorem dbGet_dbRemove_self (db : Db) (id : String) :
    dbGet (dbRemove db id) id = none := by
  induction db with
  | nil => rfl
  | cons kr rest ih =>
    obtain ⟨a, r⟩ := kr
    by_cases h : a = id
    · simp [dbRemove, h, ih]
    · simp [dbRemove, dbGet, h, ih]

theorem dbGet_dbRemove_other (db : Db) (id id' : String) (h : id' ≠ id) :
    dbGet (dbRemove db id) id' = dbGet db id' := by
  induction db with
  | nil => rfl
  | cons kr rest ih =>
    obtain ⟨a, r⟩ := kr
    by_cases h1 : a = id
    · subst h1
      simp [dbRemove, dbGet, Ne.symm h, ih]
    · by_cases h2 : a = id'
      · subst h2
        simp [dbRemove, dbGet, h1]
      · simp [dbRemove, dbGet, h1, h2, ih]

theorem dbRemove_of_absent (db : Db) (id : String) (h : dbGet db id = none) :
    dbRemove db id = db := by
  induction db with
  | nil => rfl
  | cons kr rest ih =>
    obtain ⟨a, r⟩ := kr
    by_cases h1 : a = id
    · simp [dbGet, h1] at h
    · simp only [dbGet, h1, if_false] at h
      simp [dbRemove, h1, ih h]

/-- Deleting by key keeps exactly the records stored under other keys, in scan order. -/
theorem dbRemove_eq_filter (db : Db) (id : String) :
    dbRemove db id = db.filter (fun kr => decide (kr.1 ≠ id)) := by
  induction db with
  | nil => rfl
  | cons kr rest ih =>
    obtain ⟨a, r⟩ := kr
    by_cases h1 : a = id
    · simp [dbRemove, h1, ih]
    · simp [dbRemove, h1, ih]

/-! ### The middleware -/

/-- An authenticated request reaches the route handler exactly once, with the
decoded payload attached. -/
theorem serve_of_authenticated (env : Env) (svc : Services) (route : GuardedRoute)
    (req : Request) (s : State) (h : authenticated env svc req = true) :
    ∃ decoded, serve env svc route req s
      = { outcome := route.handler svc { req with user := some decoded } s,
          invocations := [{ req with user := some decoded }] } := by
  unfold authenticated at h
  cases ha : req.authorization with
  | none => simp [ha] at h
  | some header =>
    simp only [ha] at h
    cases hv : jwtVerify env.jwt (jsIndex (jsSplitSpace header) 1) env.secretToken svc.clock with
    | error e => simp [hv] at h
    | ok decoded =>
      refine ⟨decoded, ?_⟩
      by_cases hh : header = ""
      · subst hh
        simp [jsSplitSpace, splitOnChar, jsIndex, jwtVerify] at hv
      · simp [serve, authenticateToken, ha, hh, hv]

/-- C1: on every guarded route, a request whose Authorization header is absent,
or whose second segment (the header split at the space character) fails
verification under the signing secret, is answered 401 without the handler
being invoked, without any external operation and with the state unchanged;
when verification succeeds the decoded payload is attached as `user` and the
handler is invoked exactly once, on that request. -/
theorem C1_authenticateToken_guards (env : Env) (svc : Services) (route : GuardedRoute)
    (req : Request) (s : State) :
    ((req.authorization = none ∨
        ∃ header e, req.authorization = some header ∧
          jwtVerify env.jwt (jsIndex (jsSplitSpace header) 1) env.secretToken svc.clock
            = .error e) →
      (serve env svc route req s).outcome.reply.status = some 401 ∧
      (serve env svc route req s).invocations = [] ∧
      (serve env svc route req s).outcome.effects = [] ∧
      (serve env svc route req s).outcome.state = s) ∧
    (∀ header decoded, req.authorization = some header →
        jwtVerify env.jwt (jsIndex (jsSplitSpace header) 1) env.secretToken svc.clock
          = .ok decoded →
      (serve env svc route req s).invocations = [{ req with user := some decoded }] ∧
      (serve env svc route req s).outcome
        = route.handler svc { req with user := some decoded } s) := by
  constructor
  · rintro (h | ⟨header, e, h, hv⟩)
    · simp [serve, authenticateToken, h, Reply.status]
    · by_cases hh : header = ""
      · simp [serve, authenticateToken, h, hh, Reply.status]
      · simp [serve, authenticateToken, h, hh, hv, Reply.status]
  · intro header decoded h hv
    by_cases hh : header = ""
    · subst hh
      simp [jsSplitSpace, splitOnChar, jsIndex, jwtVerify] at hv
    · simp [serve, authenticateToken, h, hh, hv]

/-- C1 witness: a header without a space is refused on `DELETE /properties/:id`,
and the header `Bearer tok` reaches the handler of `GET /properties/:id` once. -/
theorem C1_authenticateToken_guards_witness :
    ((serve sampleEnv sampleServices .deleteProperty
        { sampleRequest with authorization := some "Bearertok" } sampleState).outcome.reply.status
        = some 401 ∧
      (serve sampleEnv sampleServices .deleteProperty
        { sampleRequest with authorization := some "Bearertok" } sampleState).invocations = [] ∧
      (serve sampleEnv sampleServices .deleteProperty
        { sampleRequest with authorization := some "Bearertok" } sampleState).outcome.effects = [] ∧
      (serve sampleEnv sampleServices .deleteProperty
        { sampleRequest with authorization := some "Bearertok" } sampleState).outcome.state
        = sampleState) ∧
    ((serve sampleEnv sampleServices .getProperty sampleRequest sampleState).invocations
        = [{ sampleRequest with
              user := some { email := "admin@mangi.test", iat := 1000, exp := 8200 } }] ∧
      (serve sampleEnv sampleServices .getProperty sampleRequest sampleState).outcome
        = GuardedRoute.handler .getProperty sampleServices
            { sampleRequest with
              user := some { email := "admin@mangi.test", iat := 1000, exp := 8200 } }
            sampleState) :=
  ⟨(C1_authenticateToken_guards sampleEnv sampleServices .deleteProperty
      { sampleRequest with authorization := some "Bearertok" } sampleState).1
      (Or.inr ⟨"Bearertok", "jwt must be provided", rfl, by decide⟩),
   (C1_authenticateToken_guards sampleEnv sampleServices .getProperty sampleRequest
      sampleState).2 "Bearer tok" _ rfl (by decide)⟩

/-- C4: an authenticated `POST /properties` without an `image` file is answered
400 with the text `No image file was uploaded.`, whatever the body holds; no
blob-store or database operation is issued and the state is unchanged. -/
theorem C4_create_without_image (env : Env) (svc : Services) (req : Request) (s : State)
    (hauth : authenticated env svc req = true) (himage : req.image = none) :
    (serve env svc .postProperties req s).outcome.reply
        = .sent 400 (.text "No image file was uploaded.") ∧
      (serve env svc .postProperties req s).outcome.effects = [] ∧
      (serve env svc .postProperties req s).outcome.state = s := by
  obtain ⟨decoded, hd⟩ := serve_of_authenticated env svc .postProperties req s hauth
  rw [hd]
  simp [GuardedRoute.handler, postProperties, himage]

/-- C4 witness: a create request with body fields but no file. -/
theorem C4_create_without_image_witness :
    (serve sampleEnv sampleServices .postProperties
        { sampleRequest with body := [("name", JSVal.str "A"), ("price", JSVal.num 10)] }
        sampleState).outcome.reply = .sent 400 (.text "No image file was uploaded.") ∧
      (serve sampleEnv sampleServices .postProperties
        { sampleRequest with body := [("name", JSVal.str "A"), ("price", JSVal.num 10)] }
        sampleState).outcome.effects = [] ∧
      (serve sampleEnv sampleServices .postProperties
        { sampleRequest with body := [("name", JSVal.str "A"), ("price", JSVal.num 10)] }
        sampleState).outcome.state = sampleState :=
  C4_create_without_image sampleEnv sampleServices
    { sampleRequest with body := [("name", JSVal.str "A"), ("price", JSVal.num 10)] }
    sampleState (by decide) rfl

/-- C9: an authenticated `DELETE /properties/:id` whose database read resolves:
when no record is stored at the id the reply is 404 with the message
`Property not found.` and the state is unchanged; when a record is stored there
(and the removal resolves) the reply is 200, the record is removed, every other
record is unchanged and keeps its place in the scan order, and a later
authenticated `GET /properties/:id` for that id replies with `null`. -/
theorem C9_delete_property (env : Env) (svc : Services) (req : Request) (s : State)
    (hauth : authenticated env svc req = true) (hread : svc.dbReadOk = true) :
    (dbGet s.properties req.id = none →
      (serve env svc .deleteProperty req s).outcome.reply
          = .sent 404 (.message "Property not found.") ∧
        (serve env svc .deleteProperty req s).outcome.state = s) ∧
    (∀ r, dbGet s.properties req.id = some r → svc.dbWriteOk = true →
      (serve env svc .deleteProperty req s).outcome.reply.status = some 200 ∧
        (serve env svc .deleteProperty req s).outcome.state.properties
          = s.properties.filter (fun kr => decide (kr.1 ≠ req.id)) ∧
        (serve env svc .deleteProperty req s).outcome.state.blobs = s.blobs ∧
        (∀ id', id' ≠ req.id →
          dbGet (serve env svc .deleteProperty req s).outcome.state.properties id'
            = dbGet s.properties id') ∧
        (∀ svc1 req1, authenticated env svc1 req1 = true → svc1.dbReadOk = true →
          req1.id = req.id →
          (serve env svc1 .getProperty req1
              (serve env svc .deleteProperty req s).outcome.state).outcome.reply
            = .sent 200 (.value none))) := by
  obtain ⟨decoded, hd⟩ := serve_of_authenticated env svc .deleteProperty req s hauth
  rw [hd]
  refine ⟨fun h => ?_, fun r h hwrite => ?_⟩
  · simp [GuardedRoute.handler, deleteProperty, hread, h]
  · refine ⟨?_, ?_, ?_, ?_, ?_⟩
    · simp [GuardedRoute.handler, deleteProperty, hread, h, hwrite, Reply.status]
    · simp [GuardedRoute.handler, deleteProperty, hread, h, hwrite, dbRemove_eq_filter]
    · simp [GuardedRoute.handler, deleteProperty, hread, h, hwrite]
    · intro id' hne
      simp [GuardedRoute.handler, deleteProperty, hread, h, hwrite,
        dbGet_dbRemove_other _ _ _ hne]
    · intro svc1 req1 hauth1 hread1 hid
      obtain ⟨decoded1, hd1⟩ := serve_of_authenticated env svc1 .getProperty req1
        { s with properties := dbRemove s.properties req.id } hauth1
      simp only [GuardedRoute.handler, deleteProperty, hread, h, hwrite, if_true]
      rw [hd1]
      simp [GuardedRoute.handler, getProperty, hread1, hid, dbGet_dbRemove_self]

/-- C9 witness: deleting a missing id, and deleting the stored record. -/
theorem C9_delete_property_witness :
    ((serve sampleEnv sampleServices .deleteProperty
          { sampleRequest with id := "-Nmissing" } sampleState).outcome.reply
        = .sent 404 (.message "Property not found.") ∧
      (serve sampleEnv sampleServices .deleteProperty
          { sampleRequest with id := "-Nmissing" } sampleState).outcome.state = sampleState) ∧
    ((serve sampleEnv sampleServices .deleteProperty sampleRequest
          sampleState).outcome.reply.status = some 200 ∧
      (serve sampleEnv sampleServices .getProperty sampleRequest
          (serve sampleEnv sampleServices .deleteProperty sampleRequest
            sampleState).outcome.state).outcome.reply = .sent 200 (.value none)) :=
  ⟨(C9_delete_property sampleEnv sampleServices { sampleRequest with id := "-Nmissing" }
      sampleState (by decide) rfl).1 (by decide),
   ((C9_delete_property sampleEnv sampleServices sampleRequest sampleState (by decide) rfl).2
      sampleRecord (by decide) rfl).1,
   ((C9_delete_property sampleEnv sampleServices sampleRequest sampleState (by decide) rfl).2
      sampleRecord (by decide) rfl).2.2.2.2 sampleServices sampleRequest (by decide) rfl rfl⟩


/-! ### Listing -/

/-- The function `updateImagePath` returns an object with the same properties. -/
theorem updateImagePath_some (p : Obj) :
    ∃ q, updateImagePath (some p) = some q ∧ ∀ k, Obj.get q k = Obj.get p k := by
  unfold updateImagePath
  by_cases h : (Obj.get p "imageUrl").truthy = true
  · refine ⟨Obj.set (Obj.spread [] p) "imageUrl" (Obj.get p "imageUrl"), by simp [h], ?_⟩
    intro k
    rw [Obj.get_set, Obj.get_spread_nil]
    by_cases hk : "imageUrl" = k
    · subst hk; simp
    · simp [hk]
  · exact ⟨p, by simp [h], fun _ => rfl⟩

/-- One listed element per stored record, in scan order: the `id` of the
element is the stored `id` property when the record has one and the key of the
record otherwise; every other property is the stored one. -/
theorem listProperties_spec (db : Db) :
    ∃ elems : List Obj, listProperties db = elems.map some ∧
      List.Forall₂
        (fun kr e =>
          Obj.get e "id"
            = (if Obj.hasKey kr.2 "id" then Obj.get kr.2 "id" else JSVal.str kr.1) ∧
          ∀ k, k ≠ "id" → Obj.get e k = Obj.get kr.2 k)
        db elems := by
  induction db with
  | nil => exact ⟨[], rfl, List.Forall₂.nil⟩
  | cons kr rest ih =>
    obtain ⟨elems, he, hf⟩ := ih
    obtain ⟨q, hq, hget⟩ := updateImagePath_some (Obj.spread [("id", JSVal.str kr.1)] kr.2)
    refine ⟨q :: elems, ?_, List.Forall₂.cons ⟨?_, ?_⟩ hf⟩
    · have : listProperties (kr :: rest)
          = updateImagePath (some (Obj.spread [("id", JSVal.str kr.1)] kr.2))
              :: listProperties rest := rfl
      rw [this, hq, he]
      rfl
    · rw [hget, Obj.get_spread]
      simp [Obj.get]
    · intro k hk
      rw [hget, Obj.get_spread]
      cases hkk : Obj.hasKey kr.2 k
      · simp [Obj.get, Ne.symm hk, Obj.get_of_hasKey_false _ _ hkk]
      · simp

/-- C10, as stated, fails: in a collection whose record under the key `-Nkey1`
has a property `id` of its own, the listed element carries the stored `id`,
not the key of the record. -/
theorem C10_counterexample_own_id :
    dbGet ownIdState.properties "-Nkey1"
        = some [("id", JSVal.str "legacy-7"), ("name", JSVal.str "Villa")] ∧
      (serve sampleEnv sampleServices .getProperties sampleRequest ownIdState).outcome.reply
        = .sent 200 (.properties
            [some [("id", JSVal.str "legacy-7"), ("name", JSVal.str "Villa")]]) ∧
      JSVal.str "legacy-7" ≠ JSVal.str "-Nkey1" := by
  decide

/-- C10, amended: for every state of the collection, an authenticated
`GET /properties` whose database read resolves replies 200 with an array
holding exactly one element per stored record, in the order of the full scan;
every property of the element other than `id` is the property of the stored
record, and the `id` of the element is the key of the record when the stored
record has no property named `id`, and the stored `id` property otherwise. -/
theorem C10_list_properties (env : Env) (svc : Services) (req : Request) (s : State)
    (hauth : authenticated env svc req = true) (hread : svc.dbReadOk = true) :
    ∃ elems : List Obj,
      (serve env svc .getProperties req s).outcome.reply
          = .sent 200 (.properties (elems.map some)) ∧
        List.Forall₂
          (fun kr e =>
            Obj.get e "id"
              = (if Obj.hasKey kr.2 "id" then Obj.get kr.2 "id" else JSVal.str kr.1) ∧
            ∀ k, k ≠ "id" → Obj.get e k = Obj.get kr.2 k)
          s.properties elems := by
  obtain ⟨decoded, hd⟩ := serve_of_authenticated env svc .getProperties req s hauth
  obtain ⟨elems, he, hf⟩ := listProperties_spec s.properties
  refine ⟨elems, ?_, hf⟩
  rw [hd]
  simp [GuardedRoute.handler, getProperties, hread, he]

/-- C10 witness: listing the collection with one stored record. -/
theorem C10_list_properties_witness :
    ∃ elems : List Obj,
      (serve sampleEnv sampleServices .getProperties sampleRequest sampleState).outcome.reply
          = .sent 200 (.properties (elems.map some)) ∧
        List.Forall₂
          (fun kr e =>
            Obj.get e "id"
              = (if Obj.hasKey kr.2 "id" then Obj.get kr.2 "id" else JSVal.str kr.1) ∧
            ∀ k, k ≠ "id" → Obj.get e k = Obj.get kr.2 k)
          sampleState.properties elems :=
  C10_list_properties sampleEnv sampleServices sampleRequest sampleState (by decide) rfl

/-! ### Writes -/

theorem Obj.get_of_not_mem_keys (o : Obj) (k : String) (h : k ∉ Obj.keys o) :
    Obj.get o k = JSVal.undefined := by
  apply Obj.get_of_hasKey_false
  cases hk : Obj.hasKey o k with
  | false => rfl
  | true => exact absurd ((Obj.hasKey_eq_true_iff o k).1 hk) h

theorem Obj.get_erase (o : Obj) (k k' : String) :
    Obj.get (Obj.erase o k) k' = if k = k' then JSVal.undefined else Obj.get o k' := by
  induction o with
  | nil => simp [Obj.erase, Obj.get]
  | cons kv rest ih =>
    obtain ⟨a, b⟩ := kv
    by_cases h : a = k
    · subst h
      by_cases h' : a = k'
      · subst h'
        simpa [Obj.erase] using ih
      · simpa [Obj.erase, Obj.get, h'] using ih
    · by_cases h' : a = k'
      · subst h'
        simp [Obj.erase, Obj.get, h, Ne.symm h]
      · simp [Obj.erase, Obj.get, h, h', ih]

theorem keys_erase_subset (o : Obj) (k k' : String) (h : k' ∈ Obj.keys (Obj.erase o k)) :
    k' ∈ Obj.keys o := by
  induction o with
  | nil => simp [Obj.erase, Obj.keys] at h
  | cons kv rest ih =>
    obtain ⟨a, b⟩ := kv
    have hk : Obj.keys ((a, b) :: rest) = a :: Obj.keys rest := rfl
    rw [hk, List.mem_cons]
    by_cases ha : a = k
    · simp only [Obj.erase, ha, if_true] at h
      exact Or.inr (ih h)
    · simp only [Obj.erase, ha, if_false] at h
      have hk2 : Obj.keys ((a, b) :: Obj.erase rest k) = a :: Obj.keys (Obj.erase rest k) := rfl
      rw [hk2, List.mem_cons] at h
      exact h.imp id ih

theorem keys_storable_subset (o : Obj) (k : String) (h : k ∈ Obj.keys (storable o)) :
    k ∈ Obj.keys o := by
  simp only [Obj.keys, storable, List.mem_map, List.mem_filter] at h ⊢
  obtain ⟨kv, ⟨hm, _⟩, rfl⟩ := h
  exact ⟨kv, hm, rfl⟩

/-- Reading back what the store keeps of an object: the properties of the
object, a `null` reading as an absent property. -/
theorem get_storable (o : Obj) (hnodup : (Obj.keys o).Nodup) (k : String) :
    Obj.get (storable o) k
      = if Obj.get o k = JSVal.null then JSVal.undefined else Obj.get o k := by
  induction o with
  | nil => simp [storable, Obj.get]
  | cons kv rest ih =>
    obtain ⟨a, b⟩ := kv
    have hk : Obj.keys ((a, b) :: rest) = a :: Obj.keys rest := rfl
    rw [hk, List.nodup_cons] at hnodup
    have ih := ih hnodup.2
    have hst : storable ((a, b) :: rest)
        = if b ≠ JSVal.null then (a, b) :: storable rest else storable rest := by
      by_cases hb : b = JSVal.null <;> simp [storable, List.filter_cons, hb]
    rw [hst]
    by_cases hb : b = JSVal.null
    · subst hb
      simp only [ne_eq, not_true_eq_false, if_false]
      by_cases hka : a = k
      · subst hka
        rw [Obj.get_of_not_mem_keys _ _ (fun hm => hnodup.1 (keys_storable_subset _ _ hm))]
        simp [Obj.get]
      · simp [Obj.get, hka, ih]
    · simp only [ne_eq, hb, not_false_eq_true, if_true]
      by_cases hka : a = k
      · simp [Obj.get, hka, hb]
      · simp [Obj.get, hka, ih]

/-- The partial merge, property by property: a property of the payload is
overwritten (removed when the payload holds `null`), every other property
keeps its stored value. -/
theorem get_mergeRecord (stored updates : Obj) (hnodup : (Obj.keys updates).Nodup)
    (k : String) :
    Obj.get (mergeRecord stored updates) k
      = if Obj.hasKey updates k then
          (if Obj.get updates k = JSVal.null then JSVal.undefined else Obj.get updates k)
        else Obj.get stored k := by
  induction updates generalizing stored with
  | nil => simp [mergeRecord, Obj.hasKey]
  | cons kv rest ih =>
    obtain ⟨a, b⟩ := kv
    have hk : Obj.keys ((a, b) :: rest) = a :: Obj.keys rest := rfl
    rw [hk, List.nodup_cons] at hnodup
    have hrest : Obj.hasKey rest a = false := by
      cases hh : Obj.hasKey rest a with
      | false => rfl
      | true => exact absurd ((Obj.hasKey_eq_true_iff rest a).1 hh) hnodup.1
    have hm : mergeRecord stored ((a, b) :: rest)
        = mergeRecord (if b = JSVal.null then Obj.erase stored a else Obj.set stored a b)
            rest := rfl
    rw [hm, ih _ hnodup.2]
    by_cases hka : a = k
    · subst hka
      by_cases hb : b = JSVal.null
      · simp [Obj.hasKey, Obj.get, hrest, hb, Obj.get_erase]
      · simp [Obj.hasKey, Obj.get, hrest, hb, Obj.get_set]
    · by_cases hb : b = JSVal.null
      · simp [Obj.hasKey, Obj.get, hka, hb, Obj.get_erase]
      · simp [Obj.hasKey, Obj.get, hka, hb, Obj.get_set]

theorem keys_propertyDataOf (body : Obj) (u : JSVal) :
    Obj.keys (propertyDataOf body u) = propertyFields := rfl

theorem keys_updatesOf_nodup (body : Obj) (url : JSVal) :
    (Obj.keys (updatesOf body url)).Nodup := by
  unfold updatesOf
  by_cases h : url.truthy = true
  · simp [h, Obj.set, Obj.keys]
  · simp [h, Obj.keys]

theorem hasKey_imageUrl_updatesOf (body : Obj) (url : JSVal) :
    Obj.hasKey (updatesOf body url) "imageUrl" = url.truthy := by
  unfold updatesOf
  by_cases h : url.truthy = true
  · simp [h, Obj.set, Obj.hasKey]
  · simp [h, Obj.hasKey]

theorem get_imageUrl_updatesOf (body : Obj) (url : JSVal) :
    Obj.get (updatesOf body url) "imageUrl"
      = if url.truthy then url else JSVal.undefined := by
  unfold updatesOf
  by_cases h : url.truthy = true
  · simp [h, Obj.set, Obj.get]
  · simp [h, Obj.get]

theorem JSVal.ne_undefined_of_truthy (v : JSVal) (h : v.truthy = true) :
    v ≠ JSVal.undefined := by
  intro hv
  subst hv
  simp [JSVal.truthy] at h

theorem JSVal.ne_null_of_truthy (v : JSVal) (h : v.truthy = true) :
    v ≠ JSVal.null := by
  intro hv
  subst hv
  simp [JSVal.truthy] at h

theorem JSVal.or_ne_undefined (a d : JSVal) (hd : d ≠ JSVal.undefined) :
    a.or d ≠ JSVal.undefined := by
  unfold JSVal.or
  by_cases h : a.truthy = true
  · simpa [h] using JSVal.ne_undefined_of_truthy a h
  · simpa [h] using hd

theorem JSVal.or_ne_null (a d : JSVal) (hd : d ≠ JSVal.null) :
    a.or d ≠ JSVal.null := by
  unfold JSVal.or
  by_cases h : a.truthy = true
  · simpa [h] using JSVal.ne_null_of_truthy a h
  · simpa [h] using hd

/-- The store accepts the record of a create exactly when the body supplies
name, location and description (the upload URL being non-empty). -/
theorem accepts_propertyDataOf (body : Obj) (u : JSVal) (hu : u.truthy = true) :
    accepts (propertyDataOf body u)
      = (decide (Obj.get body "name" ≠ JSVal.undefined) &&
          decide (Obj.get body "location" ≠ JSVal.undefined) &&
          decide (Obj.get body "description" ≠ JSVal.undefined)) := by
  have h1 := JSVal.or_ne_undefined (Obj.get body "price") (JSVal.num 0) (by decide)
  have h2 := JSVal.or_ne_undefined (Obj.get body "bedrooms") (JSVal.num 0) (by decide)
  have h3 := JSVal.or_ne_undefined (Obj.get body "bathrooms") (JSVal.num 0) (by decide)
  have h4 := JSVal.or_ne_undefined (Obj.get body "propertyType") (JSVal.str "Rent") (by decide)
  have h5 := JSVal.or_ne_undefined (Obj.get body "period") (JSVal.str "") (by decide)
  have h6 := JSVal.ne_undefined_of_truthy u hu
  simp [accepts, propertyDataOf, h1, h2, h3, h4, h5, h6, Bool.and_assoc]

/-- The store accepts the payload of an update exactly when the body supplies
name, location and description. -/
theorem accepts_updatesOf (body : Obj) (url : JSVal) :
    accepts (updatesOf body url)
      = (decide (Obj.get body "name" ≠ JSVal.undefined) &&
          decide (Obj.get body "location" ≠ JSVal.undefined) &&
          decide (Obj.get body "description" ≠ JSVal.undefined)) := by
  have h1 := JSVal.or_ne_undefined (Obj.get body "price") (JSVal.num 0) (by decide)
  have h2 := JSVal.or_ne_undefined (Obj.get body "bedrooms") (JSVal.num 0) (by decide)
  have h3 := JSVal.or_ne_undefined (Obj.get body "bathrooms") (JSVal.num 0) (by decide)
  have h4 := JSVal.or_ne_undefined (Obj.get body "propertyType") (JSVal.str "Rent") (by decide)
  have h5 := JSVal.or_ne_undefined (Obj.get body "period") (JSVal.str "") (by decide)
  unfold updatesOf
  by_cases h : url.truthy = true
  · have h6 := JSVal.ne_undefined_of_truthy url h
    simp [accepts, Obj.set, h, h1, h2, h3, h4, h5, h6, Bool.and_assoc]
  · simp [accepts, h, h1, h2, h3, h4, h5, Bool.and_assoc]

/-! ### Create -/

/-- A create request with an image, a non-empty upload URL, a body supplying
name, location and description, and a database that answers: what the handler
issues, stores and replies. -/
theorem postProperties_success (svc : Services) (req : Request) (s : State)
    (image : UploadedFile) (u : JSVal)
    (himage : req.image = some image) (hput : svc.putUrl = some u)
    (hu : u.truthy = true) (hwrite : svc.dbWriteOk = true)
    (hname : Obj.get req.body "name" ≠ JSVal.undefined)
    (hlocation : Obj.get req.body "location" ≠ JSVal.undefined)
    (hdescription : Obj.get req.body "description" ≠ JSVal.undefined) :
    postProperties svc req s
      = { reply := .sent 200 (.withProperty "Property added successfully"
                    (propertyDataOf req.body u)),
          state := { s with
            blobs := s.blobs ++ [(imagePathOf svc image, image.data)],
            properties := dbSet s.properties svc.pushKey (propertyDataOf req.body u) },
          effects := [.blobPut (imagePathOf svc image) image.data,
                      .dbSet svc.pushKey (propertyDataOf req.body u)] } := by
  have hacc : writeResolves svc (propertyDataOf req.body u) = true := by
    simp [writeResolves, hwrite, accepts_propertyDataOf _ _ hu, hname, hlocation, hdescription]
  simp [postProperties, himage, hput, hu, hacc]

/-- C5, as stated, fails.  A create request whose body supplies an empty
`propertyType` (with a name, a location and a description) stores the record
with `propertyType` equal to `Rent`, not to the supplied value.  And the body
with a name and a location only is answered 500 and stores no record: the
store rejects the record, whose description is `undefined`. -/
theorem C5_counterexample_falsy_and_missing :
    (Obj.hasKey emptyTypeRequest.body "propertyType" = true ∧
      suppliedOrDefault emptyTypeRequest.body "propertyType" (JSVal.str "Rent") = JSVal.str "" ∧
      (serve sampleEnv sampleServices .postProperties emptyTypeRequest
          sampleState).outcome.reply.status = some 200 ∧
      storedField
        (serve sampleEnv sampleServices .postProperties emptyTypeRequest sampleState).outcome.state
        "-Nkey2" "propertyType" = some (JSVal.str "Rent")) ∧
    (bareRequest.body = [("name", JSVal.str "A"), ("location", JSVal.str "B")] ∧
      (serve sampleEnv sampleServices .postProperties bareRequest sampleState).outcome.reply
        = .sent 500 (.text "Failed to add the property.") ∧
      (serve sampleEnv sampleServices .postProperties bareRequest
          sampleState).outcome.state.properties = sampleState.properties) := by
  decide

/-- C5, amended: for an authenticated create with an image whose upload returns
a non-empty URL `u`, whose body supplies name, location and description, and
whose database write resolves, the record written under the generated key has
name, location and description as supplied, price, bedrooms and bathrooms
equal to the supplied value when it is truthy and to 0 otherwise, propertyType
equal to the supplied value when it is truthy and to `Rent` otherwise, period
equal to the supplied value when it is truthy and to the empty string
otherwise, and imageUrl equal to `u`; the stored record reads back so. -/
theorem C5_create_record_defaults (env : Env) (svc : Services) (req : Request) (s : State)
    (image : UploadedFile) (u : JSVal)
    (hauth : authenticated env svc req = true)
    (himage : req.image = some image) (hput : svc.putUrl = some u)
    (hu : u.truthy = true) (hwrite : svc.dbWriteOk = true)
    (hname : Obj.get req.body "name" ≠ JSVal.undefined)
    (hlocation : Obj.get req.body "location" ≠ JSVal.undefined)
    (hdescription : Obj.get req.body "description" ≠ JSVal.undefined) :
    (serve env svc .postProperties req s).outcome.effects
        = [.blobPut (imagePathOf svc image) image.data,
           .dbSet svc.pushKey (propertyDataOf req.body u)] ∧
      (∀ k, k ∈ ["name", "location", "description"] →
        Obj.get (propertyDataOf req.body u) k = Obj.get req.body k) ∧
      (∀ k, k ∈ ["price", "bedrooms", "bathrooms"] →
        Obj.get (propertyDataOf req.body u) k
          = if (Obj.get req.body k).truthy then Obj.get req.body k else JSVal.num 0) ∧
      Obj.get (propertyDataOf req.body u) "propertyType"
        = (if (Obj.get req.body "propertyType").truthy then Obj.get req.body "propertyType"
           else JSVal.str "Rent") ∧
      Obj.get (propertyDataOf req.body u) "period"
        = (if (Obj.get req.body "period").truthy then Obj.get req.body "period"
           else JSVal.str "") ∧
      Obj.get (propertyDataOf req.body u) "imageUrl" = u ∧
      u ≠ JSVal.str "" ∧
      (∀ k, Obj.get (propertyDataOf req.body u) k ≠ JSVal.null →
        storedField (serve env svc .postProperties req s).outcome.state svc.pushKey k
          = some (Obj.get (propertyDataOf req.body u) k)) := by
  obtain ⟨decoded, hd⟩ := serve_of_authenticated env svc .postProperties req s hauth
  rw [hd]
  have hreq : ({ req with user := some decoded } : Request).body = req.body := rfl
  have hs := postProperties_success svc { req with user := some decoded } s image u himage hput
    hu hwrite hname hlocation hdescription
  simp only [GuardedRoute.handler, hs, hreq]
  refine ⟨trivial, ?_, ?_, ?_, ?_, ?_, ?_, ?_⟩
  · intro k hk
    simp only [List.mem_cons, List.mem_singleton, List.not_mem_nil, or_false] at hk
    rcases hk with rfl | rfl | rfl <;> simp [propertyDataOf, Obj.get]
  · intro k hk
    simp only [List.mem_cons, List.mem_singleton, List.not_mem_nil, or_false] at hk
    rcases hk with rfl | rfl | rfl <;> simp [propertyDataOf, Obj.get, JSVal.or]
  · simp [propertyDataOf, Obj.get, JSVal.or]
  · simp [propertyDataOf, Obj.get, JSVal.or]
  · simp [propertyDataOf, Obj.get]
  · intro h
    subst h
    simp [JSVal.truthy] at hu
  · intro k hk
    simp only [storedField, dbGet_dbSet_self, Option.map_some']
    rw [get_storable _ (by rw [keys_propertyDataOf]; decide)]
    simp [hk]

/-- C5 witness: the body with a name, a location and a description only is
stored with price 0, bedrooms 0, bathrooms 0, propertyType `Rent`, an empty
period and the upload URL. -/
theorem C5_create_record_defaults_witness :
    storedField
        (serve sampleEnv sampleServices .postProperties createRequest sampleState).outcome.state
        "-Nkey2" "price" = some (JSVal.num 0) ∧
      storedField
        (serve sampleEnv sampleServices .postProperties createRequest sampleState).outcome.state
        "-Nkey2" "bedrooms" = some (JSVal.num 0) ∧
      storedField
        (serve sampleEnv sampleServices .postProperties createRequest sampleState).outcome.state
        "-Nkey2" "bathrooms" = some (JSVal.num 0) ∧
      storedField
        (serve sampleEnv sampleServices .postProperties createRequest sampleState).outcome.state
        "-Nkey2" "propertyType" = some (JSVal.str "Rent") ∧
      storedField
        (serve sampleEnv sampleServices .postProperties createRequest sampleState).outcome.state
        "-Nkey2" "period" = some (JSVal.str "") ∧
      storedField
        (serve sampleEnv sampleServices .postProperties createRequest sampleState).outcome.state
        "-Nkey2" "imageUrl" = some (JSVal.str "https://blob.test/a.png") := by
  have h := (C5_create_record_defaults sampleEnv sampleServices createRequest sampleState
    sampleImage (JSVal.str "https://blob.test/a.png") (by decide) rfl rfl (by decide)
    rfl (by decide) (by decide) (by decide)).2.2.2.2.2.2.2
  exact ⟨h "price" (by decide), h "bedrooms" (by decide), h "bathrooms" (by decide),
    h "propertyType" (by decide), h "period" (by decide), h "imageUrl" (by decide)⟩

/-- C6, as stated, fails: a successful create stores the record under the
generated key `-Nkey2`, and the reply carries the record's nine fields, none of
which is named `id` or `key` and none of which holds the generated key. -/
theorem C6_counterexample_reply_without_key :
    (serve sampleEnv sampleServices .postProperties createRequest sampleState).outcome.reply
        = .sent 200 (.withProperty "Property added successfully"
            [ ("name", JSVal.str "A"), ("location", JSVal.str "B"),
              ("description", JSVal.str "D"), ("price", JSVal.num 0),
              ("bedrooms", JSVal.num 0), ("bathrooms", JSVal.num 0),
              ("propertyType", JSVal.str "Rent"), ("period", JSVal.str ""),
              ("imageUrl", JSVal.str "https://blob.test/a.png") ]) ∧
      (dbGet (serve sampleEnv sampleServices .postProperties createRequest
          sampleState).outcome.state.properties "-Nkey2").isSome = true ∧
      (dbGet sampleState.properties "-Nkey2").isSome = false ∧
      (propertyDataOf createRequest.body (JSVal.str "https://blob.test/a.png")).all
        (fun kv => decide (kv.2 ≠ JSVal.str "-Nkey2")) = true := by
  decide

/-- C6, amended: for every successful create (authenticated, with an image,
the upload returns a non-empty URL, the body supplies name, location and
description and the database write resolves) the reply is 200 with the message
`Property added successfully` and the persisted record's nine fields; the
generated key is not part of it: the reply has no other property and is the
same whatever key `push()` generates. -/
theorem C6_create_reply (env : Env) (svc : Services) (req : Request) (s : State)
    (image : UploadedFile) (u : JSVal)
    (hauth : authenticated env svc req = true)
    (himage : req.image = some image) (hput : svc.putUrl = some u)
    (hu : u.truthy = true) (hwrite : svc.dbWriteOk = true)
    (hname : Obj.get req.body "name" ≠ JSVal.undefined)
    (hlocation : Obj.get req.body "location" ≠ JSVal.undefined)
    (hdescription : Obj.get req.body "description" ≠ JSVal.undefined) :
    (serve env svc .postProperties req s).outcome.reply
        = .sent 200 (.withProperty "Property added successfully"
            (propertyDataOf req.body u)) ∧
      Obj.keys (propertyDataOf req.body u) = propertyFields ∧
      dbGet (serve env svc .postProperties req s).outcome.state.properties svc.pushKey
        = some (storable (propertyDataOf req.body u)) ∧
      (∀ key, (serve env { svc with pushKey := key } .postProperties req s).outcome.reply
        = (serve env svc .postProperties req s).outcome.reply) := by
  obtain ⟨decoded, hd⟩ := serve_of_authenticated env svc .postProperties req s hauth
  have hreq : ({ req with user := some decoded } : Request).body = req.body := rfl
  have hs := postProperties_success svc { req with user := some decoded } s image u himage hput
    hu hwrite hname hlocation hdescription
  refine ⟨?_, rfl, ?_, ?_⟩
  · rw [hd]
    simp only [GuardedRoute.handler, hs, hreq]
  · rw [hd]
    simp only [GuardedRoute.handler, hs, hreq, dbGet_dbSet_self]
  · intro key
    have hauth1 : authenticated env { svc with pushKey := key } req = true := hauth
    obtain ⟨decoded1, hd1⟩ := serve_of_authenticated env { svc with pushKey := key }
      .postProperties req s hauth1
    have hs1 := postProperties_success { svc with pushKey := key }
      { req with user := some decoded1 } s image u himage hput hu hwrite hname hlocation
      hdescription
    rw [hd, hd1]
    simp only [GuardedRoute.handler, hs, hs1, hreq]

/-- C6 witness: the reply to a successful create of a record with a name, a
location and a description. -/
theorem C6_create_reply_witness :
    (serve sampleEnv sampleServices .postProperties createRequest sampleState).outcome.reply
        = .sent 200 (.withProperty "Property added successfully"
            (propertyDataOf createRequest.body (JSVal.str "https://blob.test/a.png"))) ∧
      (serve sampleEnv { sampleServices with pushKey := "-Nother" } .postProperties
          createRequest sampleState).outcome.reply
        = (serve sampleEnv sampleServices .postProperties createRequest
            sampleState).outcome.reply :=
  ⟨(C6_create_reply sampleEnv sampleServices createRequest sampleState sampleImage
      (JSVal.str "https://blob.test/a.png") (by decide) rfl rfl (by decide) rfl
      (by decide) (by decide) (by decide)).1,
   (C6_create_reply sampleEnv sampleServices createRequest sampleState sampleImage
      (JSVal.str "https://blob.test/a.png") (by decide) rfl rfl (by decide) rfl
      (by decide) (by decide) (by decide)).2.2.2 "-Nother"⟩

/-! ### Update -/

/-- The collection after `PUT /properties/:id`: untouched, or updated with a
payload the store accepts, built from the body and some value of the local
`imageUrl`. -/
theorem putProperty_properties (svc : Services) (req : Request) (s : State) :
    (putProperty svc req s).state.properties = s.properties ∨
      ∃ url, accepts (updatesOf req.body url) = true ∧
        (putProperty svc req s).state.properties
          = dbUpdate s.properties req.id (updatesOf req.body url) := by
  unfold putProperty
  cases req.image with
  | none =>
    by_cases hw : writeResolves svc (updatesOf req.body JSVal.null) = true
    · have hacc : accepts (updatesOf req.body JSVal.null) = true := by
        simp only [writeResolves, Bool.and_eq_true] at hw
        exact hw.2
      exact Or.inr ⟨JSVal.null, hacc, by simp [putPropertyUpdate, hw]⟩
    · exact Or.inl (by simp [putPropertyUpdate, hw])
  | some image =>
    cases svc.putUrl with
    | none => exact Or.inl rfl
    | some url =>
      by_cases hw : writeResolves svc (updatesOf req.body url) = true
      · have hacc : accepts (updatesOf req.body url) = true := by
          simp only [writeResolves, Bool.and_eq_true] at hw
          exact hw.2
        exact Or.inr ⟨url, hacc, by simp [putPropertyUpdate, hw]⟩
      · exact Or.inl (by simp [putPropertyUpdate, hw])

/-- A reply 200 to `PUT /properties/:id` means the update was written. -/
theorem putProperty_of_status_200 (svc : Services) (req : Request) (s : State)
    (h : (putProperty svc req s).reply.status = some 200) :
    ∃ url, (putProperty svc req s).state.properties
      = dbUpdate s.properties req.id (updatesOf req.body url) := by
  cases hi : req.image with
  | none =>
    by_cases hw : writeResolves svc (updatesOf req.body JSVal.null) = true
    · exact ⟨JSVal.null, by simp [putProperty, hi, putPropertyUpdate, hw]⟩
    · simp [putProperty, hi, putPropertyUpdate, hw, Reply.status] at h
  | some image =>
    cases hp : svc.putUrl with
    | none => simp [putProperty, hi, hp, Reply.status] at h
    | some url =>
      by_cases hw : writeResolves svc (updatesOf req.body url) = true
      · exact ⟨url, by simp [putProperty, hi, hp, putPropertyUpdate, hw]⟩
      · simp [putProperty, hi, hp, putPropertyUpdate, hw, Reply.status] at h

/-- The stored field after an update of the record under `id`. -/
theorem storedField_dbUpdate (s : State) (db : Db) (id : String) (updates r : Obj) (k : String)
    (hr : dbGet db id = some r) (hnodup : (Obj.keys updates).Nodup)
    (hs : s.properties = dbUpdate db id updates) :
    storedField s id k
      = some (if Obj.hasKey updates k then
                (if Obj.get updates k = JSVal.null then JSVal.undefined
                 else Obj.get updates k)
              else Obj.get r k) := by
  simp [storedField, hs, dbGet_dbUpdate_self, hr, get_mergeRecord _ _ hnodup]

theorem get_updatesOf_text (body : Obj) (url : JSVal) (k : String)
    (hk : k ∈ ["name", "location", "description"]) :
    Obj.get (updatesOf body url) k = Obj.get body k := by
  simp only [List.mem_cons, List.mem_singleton, List.not_mem_nil, or_false] at hk
  unfold updatesOf
  by_cases h : url.truthy = true <;>
    rcases hk with rfl | rfl | rfl <;> simp [h, Obj.set, Obj.get]

theorem get_updatesOf_number (body : Obj) (url : JSVal) (k : String)
    (hk : k ∈ ["price", "bedrooms", "bathrooms"]) :
    Obj.hasKey (updatesOf body url) k = true ∧
      Obj.get (updatesOf body url) k = (Obj.get body k).or (JSVal.num 0) := by
  simp only [List.mem_cons, List.mem_singleton, List.not_mem_nil, or_false] at hk
  unfold updatesOf
  by_cases h : url.truthy = true <;>
    rcases hk with rfl | rfl | rfl <;> simp [h, Obj.set, Obj.get, Obj.hasKey]

theorem get_updatesOf_propertyType (body : Obj) (url : JSVal) :
    Obj.hasKey (updatesOf body url) "propertyType" = true ∧
      Obj.get (updatesOf body url) "propertyType"
        = (Obj.get body "propertyType").or (JSVal.str "Rent") := by
  unfold updatesOf
  by_cases h : url.truthy = true <;> simp [h, Obj.set, Obj.get, Obj.hasKey]

theorem get_updatesOf_period (body : Obj) (url : JSVal) :
    Obj.hasKey (updatesOf body url) "period" = true ∧
      Obj.get (updatesOf body url) "period" = (Obj.get body "period").or (JSVal.str "") := by
  unfold updatesOf
  by_cases h : url.truthy = true <;> simp [h, Obj.set, Obj.get, Obj.hasKey]

theorem hasKey_updatesOf_other (body : Obj) (url : JSVal) (k : String)
    (hk : k ∉ propertyFields) :
    Obj.hasKey (updatesOf body url) k = false := by
  cases hh : Obj.hasKey (updatesOf body url) k with
  | false => rfl
  | true =>
    exfalso
    have hm := (Obj.hasKey_eq_true_iff _ _).1 hh
    apply hk
    unfold updatesOf at hm
    by_cases h : url.truthy = true
    · simp only [h, if_true, Obj.set, Obj.keys] at hm
      simpa [propertyFields] using hm
    · simp only [h, Obj.keys] at hm
      simp only [propertyFields]
      simp only [Bool.false_eq_true, if_false, List.map_cons, List.map_nil, List.mem_cons,
        List.mem_singleton, List.not_mem_nil, or_false] at hm
      simp only [List.mem_cons, List.mem_singleton, List.not_mem_nil, or_false]
      tauto

/-- An update whose body leaves out name, location or description is not
written: the store rejects the payload and the collection is untouched. -/
theorem putProperty_of_missing_text (svc : Services) (req : Request) (s : State) (k : String)
    (hk : k ∈ ["name", "location", "description"])
    (hundef : Obj.get req.body k = JSVal.undefined) :
    (putProperty svc req s).state.properties = s.properties := by
  rcases putProperty_properties svc req s with h | ⟨url, hacc, _⟩
  · exact h
  · exfalso
    rw [accepts_updatesOf] at hacc
    simp only [List.mem_cons, List.mem_singleton, List.not_mem_nil, or_false] at hk
    rcases hk with rfl | rfl | rfl <;> simp [hundef] at hacc

/-- The stored `imageUrl` after any `PUT /properties/:id` on a stored record: the
value stored before, or a truthy URL returned by the upload of this request. -/
theorem putProperty_imageUrl_cases (svc : Services) (req : Request) (s : State) (r : Obj)
    (hr : dbGet s.properties req.id = some r) :
    storedField (putProperty svc req s).state req.id "imageUrl"
        = some (Obj.get r "imageUrl") ∨
      ∃ u, u.truthy = true ∧
        storedField (putProperty svc req s).state req.id "imageUrl" = some u := by
  rcases putProperty_properties svc req s with h | ⟨url, _, h⟩
  · left
    simp [storedField, h, hr]
  · rw [storedField_dbUpdate _ _ _ _ _ _ hr (keys_updatesOf_nodup _ _) h,
      hasKey_imageUrl_updatesOf, get_imageUrl_updatesOf]
    by_cases hu : url.truthy = true
    · right
      exact ⟨url, hu, by simp [hu, JSVal.ne_null_of_truthy url hu]⟩
    · left
      simp [hu]

/-- C7, as stated, fails: an update of the stored record that carries an image
whose upload returns the non-empty URL `https://blob.test/a.png`, with a body
that supplies the location only.  The store rejects the payload, whose name
is `undefined`; the reply is 500 and the stored imageUrl is still the old one. -/
theorem C7_counterexample_image_with_partial_body :
    relocateRequest.image = some sampleImage ∧
      sampleServices.putUrl = some (JSVal.str "https://blob.test/a.png") ∧
      storedField sampleState "-Nkey1" "imageUrl" = some (JSVal.str "https://blob.test/old.png") ∧
      (serve sampleEnv sampleServices .putProperty relocateRequest sampleState).outcome.reply
        = .sent 500 (.text "Failed to update property.") ∧
      storedField (serve sampleEnv sampleServices .putProperty relocateRequest
          sampleState).outcome.state "-Nkey1" "imageUrl"
        = some (JSVal.str "https://blob.test/old.png") := by
  decide

/-- C7, amended: an authenticated `PUT /properties/:id` on a stored record whose
imageUrl is `v`.  Without an image file the update payload has no `imageUrl`
property and the stored imageUrl is still `v` afterwards.  With an image whose
upload returns a non-empty URL `u`, a body that supplies name, location and
description, and a database update that resolves, the stored imageUrl is `u`
afterwards.  In every case a stored imageUrl that was set (truthy) is still
set afterwards: no update leaves it empty or removed. -/
theorem C7_update_imageUrl (env : Env) (svc : Services) (req : Request) (s : State) (r : Obj)
    (hauth : authenticated env svc req = true)
    (hr : dbGet s.properties req.id = some r) :
    (req.image = none →
      (serve env svc .putProperty req s).outcome.effects
          = [.dbUpdate req.id (updatesOf req.body JSVal.null)] ∧
        Obj.hasKey (updatesOf req.body JSVal.null) "imageUrl" = false ∧
        storedField (serve env svc .putProperty req s).outcome.state req.id "imageUrl"
          = some (Obj.get r "imageUrl")) ∧
    (∀ image u, req.image = some image → svc.putUrl = some u → u.truthy = true →
      Obj.get req.body "name" ≠ JSVal.undefined →
      Obj.get req.body "location" ≠ JSVal.undefined →
      Obj.get req.body "description" ≠ JSVal.undefined →
      svc.dbWriteOk = true →
      (serve env svc .putProperty req s).outcome.reply.status = some 200 ∧
        storedField (serve env svc .putProperty req s).outcome.state req.id "imageUrl"
          = some u) ∧
    ((Obj.get r "imageUrl").truthy = true →
      ∃ v, storedField (serve env svc .putProperty req s).outcome.state req.id "imageUrl"
          = some v ∧ v.truthy = true) := by
  obtain ⟨decoded, hd⟩ := serve_of_authenticated env svc .putProperty req s hauth
  rw [hd]
  simp only [GuardedRoute.handler]
  have hr1 : dbGet s.properties ({ req with user := some decoded } : Request).id = some r := hr
  refine ⟨fun himage => ⟨?_, ?_, ?_⟩,
    fun image u himage hput hu hname hlocation hdescription hwrite => ?_, fun hv => ?_⟩
  · by_cases hw : writeResolves svc (updatesOf req.body JSVal.null) = true <;>
      simp [putProperty, himage, putPropertyUpdate, hw]
  · rw [hasKey_imageUrl_updatesOf]
    rfl
  · by_cases hw : writeResolves svc (updatesOf req.body JSVal.null) = true
    · have hs : (putProperty svc { req with user := some decoded } s).state.properties
          = dbUpdate s.properties req.id (updatesOf req.body JSVal.null) := by
        simp [putProperty, himage, putPropertyUpdate, hw]
      rw [storedField_dbUpdate _ _ _ _ _ _ hr (keys_updatesOf_nodup _ _) hs,
        hasKey_imageUrl_updatesOf]
      simp [JSVal.truthy]
    · simp [putProperty, himage, putPropertyUpdate, hw, storedField, hr]
  · have hw : writeResolves svc (updatesOf req.body u) = true := by
      simp [writeResolves, hwrite, accepts_updatesOf, hname, hlocation, hdescription]
    have hs : (putProperty svc { req with user := some decoded } s).state.properties
        = dbUpdate s.properties req.id (updatesOf req.body u) := by
      simp [putProperty, himage, hput, putPropertyUpdate, hw]
    refine ⟨by simp [putProperty, himage, hput, putPropertyUpdate, hw, Reply.status], ?_⟩
    rw [storedField_dbUpdate _ _ _ _ _ _ hr (keys_updatesOf_nodup _ _) hs,
      hasKey_imageUrl_updatesOf, get_imageUrl_updatesOf]
    simp [hu, JSVal.ne_null_of_truthy u hu]
  · rcases putProperty_imageUrl_cases svc { req with user := some decoded } s r hr1 with h | h
    · exact ⟨_, h, hv⟩
    · obtain ⟨u, hu, h⟩ := h
      exact ⟨u, h, hu⟩

/-- C7 witness: an update without an image keeps the stored URL, an update with
an image and the three text fields replaces it by the upload URL, and the
stored URL stays set when the database does not answer. -/
theorem C7_update_imageUrl_witness :
    (Obj.hasKey (updatesOf renameRequest.body JSVal.null) "imageUrl" = false ∧
      storedField (serve sampleEnv sampleServices .putProperty renameRequest
          sampleState).outcome.state "-Nkey1" "imageUrl"
        = some (JSVal.str "https://blob.test/old.png")) ∧
    ((serve sampleEnv sampleServices .putProperty
        { renameRequest with image := some sampleImage } sampleState).outcome.reply.status
        = some 200 ∧
      storedField (serve sampleEnv sampleServices .putProperty
        { renameRequest with image := some sampleImage } sampleState).outcome.state
        "-Nkey1" "imageUrl" = some (JSVal.str "https://blob.test/a.png")) ∧
    (∃ v, storedField (serve sampleEnv { sampleServices with dbWriteOk := false } .putProperty
          { renameRequest with image := some sampleImage } sampleState).outcome.state
          "-Nkey1" "imageUrl" = some v ∧ v.truthy = true) :=
  ⟨((C7_update_imageUrl sampleEnv sampleServices renameRequest sampleState sampleRecord
      (by decide) (by decide)).1 rfl).2,
   (C7_update_imageUrl sampleEnv sampleServices { renameRequest with image := some sampleImage }
      sampleState sampleRecord (by decide) (by decide)).2.1 sampleImage
      (JSVal.str "https://blob.test/a.png") rfl rfl (by decide) (by decide) (by decide)
      (by decide) rfl,
   (C7_update_imageUrl sampleEnv { sampleServices with dbWriteOk := false }
      { renameRequest with image := some sampleImage } sampleState sampleRecord
      (by decide) (by decide)).2.2 (by decide)⟩

/-- C8, as stated, fails: an update whose body supplies name, location and
description but no `price` (and no image) overwrites the stored price 500 with 0. -/
theorem C8_counterexample_price_reset :
    Obj.hasKey renameRequest.body "price" = false ∧
      storedField sampleState "-Nkey1" "price" = some (JSVal.num 500) ∧
      (serve sampleEnv sampleServices .putProperty renameRequest
          sampleState).outcome.reply.status = some 200 ∧
      storedField (serve sampleEnv sampleServices .putProperty renameRequest
          sampleState).outcome.state "-Nkey1" "price" = some (JSVal.num 0) := by
  decide

/-- C8, amended: an authenticated `PUT /properties/:id` on a stored record.
A field among name, location and description that the body does not supply
keeps its stored value; so does every stored field outside the update payload:
imageUrl when the request carries no image file, and every field outside the
nine of the data model.  When the update is written (reply 200), each of
price, bedrooms, bathrooms, propertyType and period takes the supplied value
when it is truthy and otherwise, not supplied or falsy, is overwritten with
its default (0, 0, 0, `Rent`, the empty string). -/
theorem C8_update_fields (env : Env) (svc : Services) (req : Request) (s : State) (r : Obj)
    (hauth : authenticated env svc req = true)
    (hr : dbGet s.properties req.id = some r) :
    (∀ k, k ∈ ["name", "location", "description"] → Obj.get req.body k = JSVal.undefined →
      storedField (serve env svc .putProperty req s).outcome.state req.id k
        = some (Obj.get r k)) ∧
    (req.image = none →
      storedField (serve env svc .putProperty req s).outcome.state req.id "imageUrl"
        = some (Obj.get r "imageUrl")) ∧
    (∀ k, k ∉ propertyFields →
      storedField (serve env svc .putProperty req s).outcome.state req.id k
        = some (Obj.get r k)) ∧
    ((serve env svc .putProperty req s).outcome.reply.status = some 200 →
      (∀ k, k ∈ ["price", "bedrooms", "bathrooms"] →
        storedField (serve env svc .putProperty req s).outcome.state req.id k
          = some (if (Obj.get req.body k).truthy then Obj.get req.body k else JSVal.num 0)) ∧
      storedField (serve env svc .putProperty req s).outcome.state req.id "propertyType"
        = some (if (Obj.get req.body "propertyType").truthy then Obj.get req.body "propertyType"
                else JSVal.str "Rent") ∧
      storedField (serve env svc .putProperty req s).outcome.state req.id "period"
        = some (if (Obj.get req.body "period").truthy then Obj.get req.body "period"
                else JSVal.str "")) := by
  obtain ⟨decoded, hd⟩ := serve_of_authenticated env svc .putProperty req s hauth
  rw [hd]
  simp only [GuardedRoute.handler]
  have hr1 : dbGet s.properties ({ req with user := some decoded } : Request).id = some r := hr
  refine ⟨fun k hk hundef => ?_, fun himage => ?_, fun k hk => ?_, fun h200 => ?_⟩
  · have h := putProperty_of_missing_text svc { req with user := some decoded } s k hk hundef
    simp [storedField, h, hr]
  · rcases putProperty_properties svc { req with user := some decoded } s with h | ⟨url, _, h⟩
    · simp [storedField, h, hr]
    · by_cases hw : writeResolves svc (updatesOf req.body JSVal.null) = true
      · have hs : (putProperty svc { req with user := some decoded } s).state.properties
            = dbUpdate s.properties req.id (updatesOf req.body JSVal.null) := by
          simp [putProperty, himage, putPropertyUpdate, hw]
        rw [storedField_dbUpdate _ _ _ _ _ _ hr (keys_updatesOf_nodup _ _) hs,
          hasKey_imageUrl_updatesOf]
        simp [JSVal.truthy]
      · simp [putProperty, himage, putPropertyUpdate, hw, storedField, hr]
  · rcases putProperty_properties svc { req with user := some decoded } s with h | ⟨url, _, h⟩
    · simp [storedField, h, hr]
    · rw [storedField_dbUpdate _ _ _ _ _ _ hr1 (keys_updatesOf_nodup _ _) h,
        hasKey_updatesOf_other _ _ _ hk]
      simp
  · obtain ⟨url, h⟩ := putProperty_of_status_200 svc { req with user := some decoded } s h200
    refine ⟨fun k hk => ?_, ?_, ?_⟩
    · rw [storedField_dbUpdate _ _ _ _ _ _ hr1 (keys_updatesOf_nodup _ _) h,
        (get_updatesOf_number _ _ _ hk).1, (get_updatesOf_number _ _ _ hk).2]
      simp [JSVal.or_ne_null _ _ (by decide : JSVal.num 0 ≠ JSVal.null)]
      rfl
    · rw [storedField_dbUpdate _ _ _ _ _ _ hr1 (keys_updatesOf_nodup _ _) h,
        (get_updatesOf_propertyType _ _).1, (get_updatesOf_propertyType _ _).2]
      simp [JSVal.or_ne_null _ _ (by decide : JSVal.str "Rent" ≠ JSVal.null)]
      rfl
    · rw [storedField_dbUpdate _ _ _ _ _ _ hr1 (keys_updatesOf_nodup _ _) h,
        (get_updatesOf_period _ _).1, (get_updatesOf_period _ _).2]
      simp [JSVal.or_ne_null _ _ (by decide : JSVal.str "" ≠ JSVal.null)]
      rfl

/-- C8 witness: an update without an image that supplies the three text fields
only resets the price to 0 and the propertyType to `Rent`, and keeps the
stored imageUrl and a field outside the data model. -/
theorem C8_update_fields_witness :
    storedField (serve sampleEnv sampleServices .putProperty renameRequest
        sampleState).outcome.state "-Nkey1" "price" = some (JSVal.num 0) ∧
      storedField (serve sampleEnv sampleServices .putProperty renameRequest
        sampleState).outcome.state "-Nkey1" "propertyType" = some (JSVal.str "Rent") ∧
      storedField (serve sampleEnv sampleServices .putProperty renameRequest
        sampleState).outcome.state "-Nkey1" "imageUrl"
        = some (JSVal.str "https://blob.test/old.png") ∧
      storedField (serve sampleEnv sampleServices .putProperty renameRequest
        sampleState).outcome.state "-Nkey1" "owner" = some JSVal.undefined :=
  ⟨((C8_update_fields sampleEnv sampleServices renameRequest sampleState sampleRecord
      (by decide) (by decide)).2.2.2 (by decide)).1 "price" (by decide),
   ((C8_update_fields sampleEnv sampleServices renameRequest sampleState sampleRecord
      (by decide) (by decide)).2.2.2 (by decide)).2.1,
   (C8_update_fields sampleEnv sampleServices renameRequest sampleState sampleRecord
      (by decide) (by decide)).2.1 rfl,
   (C8_update_fields sampleEnv sampleServices renameRequest sampleState sampleRecord
      (by decide) (by decide)).2.2.1 "owner" (by decide)⟩

/-! ### One-time passwords -/

/-- Rounding to binary64 never goes below the truncation to 53 significant bits. -/
theorem roundBinary64_ge (n : Nat) :
    n / 2 ^ ((Nat.log2 n + 1) - 53) * 2 ^ ((Nat.log2 n + 1) - 53) ≤ roundBinary64 n := by
  unfold roundBinary64
  simp only []
  split_ifs
  · exact Nat.mul_le_mul_right _ (Nat.le_succ _)
  · exact le_refl _

/-- Rounding to binary64 does not go below the representable number 100000. -/
theorem le_roundBinary64_of_le (n : Nat) (h : 100000 * 2 ^ 53 ≤ n) :
    100000 * 2 ^ 53 ≤ roundBinary64 n := by
  refine le_trans ?_ (roundBinary64_ge n)
  have hn0 : n ≠ 0 := by
    intro h0
    subst h0
    simp at h
  have hlog : 2 ^ Nat.log2 n ≤ n := Nat.log2_self_le hn0
  generalize hsh : (Nat.log2 n + 1) - 53 = sh
  by_cases hs : sh ≤ 58
  · have hdvd : 2 ^ sh ∣ 100000 * 2 ^ 53 := by
      have h58 : (100000 * 2 ^ 53 : Nat) = 3125 * 2 ^ 58 := by norm_num
      rw [h58]
      exact Dvd.dvd.mul_left (pow_dvd_pow 2 hs) _
    obtain ⟨c, hc⟩ := hdvd
    have hcn : c ≤ n / 2 ^ sh := by
      rw [Nat.le_div_iff_mul_le (by positivity), mul_comm, ← hc]
      exact h
    calc 100000 * 2 ^ 53 = c * 2 ^ sh := by rw [hc, mul_comm]
      _ ≤ n / 2 ^ sh * 2 ^ sh := Nat.mul_le_mul_right _ hcn
  · have hl : Nat.log2 n = 52 + sh := by omega
    have hq : 2 ^ 52 ≤ n / 2 ^ sh := by
      rw [Nat.le_div_iff_mul_le (by positivity), ← pow_add, ← hl]
      exact hlog
    calc 100000 * 2 ^ 53 ≤ 2 ^ 52 * 2 ^ 59 := by norm_num
      _ ≤ 2 ^ 52 * 2 ^ sh :=
          Nat.mul_le_mul_left _ (Nat.pow_le_pow_right (by norm_num) (by omega))
      _ ≤ n / 2 ^ sh * 2 ^ sh := Nat.mul_le_mul_right _ hq

theorem otpOf_ge (random : Nat) : 100000 ≤ otpOf random := by
  unfold otpOf
  rw [Nat.le_div_iff_mul_le (by positivity)]
  exact le_roundBinary64_of_le _ (Nat.le_add_right _ _)

theorem otpGet_otpSet_self (db : List (String × Nat)) (email : String) (otp : Nat) :
    otpGet (otpSet db email otp) email = some otp := by
  induction db with
  | nil => simp [otpSet, otpGet]
  | cons kv rest ih =>
    obtain ⟨a, b⟩ := kv
    by_cases h : a = email
    · simp [otpSet, otpGet, h]
    · simp [otpSet, otpGet, h, ih]

/-- After a generation the stored code for the configured email is the generated one. -/
theorem otpGet_generateOtp (env : Env) (svc : Services) (req : Request) (s : State) :
    otpGet (generateOtp env svc req s).state.otpDB env.userEmail = some (otpOf svc.random) := by
  unfold generateOtp
  by_cases h : svc.mailOk = true <;> simp [h, otpGet_otpSet_self]

/-- The reply of `/verify-otp` after a generation, by the string form of the
submitted code: a token when it equals the string form of the latest code, 401
when it differs, and an uncaught exception when the submitted value has none. -/
theorem verifyOtp_after_generateOtp (env : Env) (svc0 svc : Services) (req0 req : Request)
    (s : State) :
    (verifyOtp env svc req (generateOtp env svc0 req0 s).state).reply
      = match (Obj.get req.body "otp").toStr with
        | .error e => .threw e
        | .ok submitted =>
          if toString (otpOf svc0.random) = submitted then
            .sent 200 (.token (jwtSign env.jwt env.userEmail env.secretToken 7200 svc.clock))
          else .sent 401 (.message "Invalid OTP") := by
  have hne : otpOf svc0.random ≠ 0 := by
    have := otpOf_ge svc0.random
    omega
  unfold verifyOtp
  simp only [otpGet_generateOtp, hne, if_false]
  cases (Obj.get req.body "otp").toStr with
  | error e => rfl
  | ok submitted =>
    by_cases h : toString (otpOf svc0.random) = submitted <;> simp [h]

/-- Before any generation `/verify-otp` replies 401 whatever the body holds. -/
theorem verifyOtp_before_generateOtp (env : Env) (svc : Services) (req : Request) (s : State)
    (h : otpGet s.otpDB env.userEmail = none) :
    (verifyOtp env svc req s).reply = .sent 401 (.message "Invalid OTP") := by
  simp [verifyOtp, h]

/-- C2, code at the failing input: after any `/generate-otp`, a `/verify-otp`
request whose body has no `otp` makes the handler throw a `TypeError`; no 401
reply is sent. -/
theorem C2_verifyOtp_throws_without_otp (env : Env) (svc0 svc : Services) (req0 : Request)
    (s : State) :
    (verifyOtp env svc emptyBodyRequest (generateOtp env svc0 req0 s).state).reply
        = .threw "TypeError: Cannot read properties of undefined (reading toString)" ∧
      (verifyOtp env svc emptyBodyRequest (generateOtp env svc0 req0 s).state).reply.status
        ≠ some 401 := by
  rw [verifyOtp_after_generateOtp]
  simp [emptyBodyRequest, Obj.get, JSVal.toStr, Reply.status]

/-! ### Bearer tokens -/

theorem splitOnChar_ne_nil (sep : Char) (l : List Char) : splitOnChar sep l ≠ [] := by
  cases l with
  | nil => simp [splitOnChar]
  | cons c cs =>
    unfold splitOnChar
    cases splitOnChar sep cs with
    | nil => simp
    | cons seg segs => by_cases h : c = sep <;> simp [h]

theorem splitOnChar_of_not_mem (sep : Char) (l : List Char) (h : sep ∉ l) :
    splitOnChar sep l = [l] := by
  induction l with
  | nil => rfl
  | cons c cs ih =>
    simp only [List.mem_cons, not_or] at h
    unfold splitOnChar
    rw [ih h.2]
    simp [Ne.symm h.1]

theorem splitOnChar_append (sep : Char) (a b : List Char) (h : sep ∉ a) :
    splitOnChar sep (a ++ sep :: b) = a :: splitOnChar sep b := by
  induction a with
  | nil =>
    simp only [List.nil_append]
    rw [splitOnChar]
    cases hb : splitOnChar sep b with
    | nil => exact absurd hb (splitOnChar_ne_nil sep b)
    | cons seg segs => simp
  | cons c cs ih =>
    simp only [List.mem_cons, not_or] at h
    simp only [List.cons_append]
    rw [splitOnChar, ih h.2]
    simp [Ne.symm h.1]

/-- The header `<scheme> <token>`, neither part holding a space, splits into the two parts. -/
theorem jsSplitSpace_scheme_token (scheme tok : String)
    (hscheme : ' ' ∉ scheme.data) (htok : ' ' ∉ tok.data) :
    jsIndex (jsSplitSpace (scheme ++ " " ++ tok)) 1 = JSVal.str tok := by
  have hdata : (scheme ++ " " ++ tok).data = scheme.data ++ ' ' :: tok.data := by
    simp [String.data_append]
  unfold jsSplitSpace
  rw [hdata, splitOnChar_append _ _ _ hscheme, splitOnChar_of_not_mem _ _ htok]
  simp [jsIndex]

theorem scheme_token_ne_empty (scheme tok : String) : scheme ++ " " ++ tok ≠ "" := by
  intro h
  have := congrArg String.data h
  simp [String.data_append] at this

/-- Verification of a string that decodes to a token: accepted exactly under
the signing secret and before the expiry instant. -/
theorem jwtVerify_of_decode (codec : JwtCodec) (t : String) (tok : Token) (secret : String)
    (clock : Nat) (hdec : codec.decode t = some tok) :
    jwtVerify codec (JSVal.str t) secret clock
      = if tok.key ≠ secret then .error "invalid signature"
        else if clock ≥ tok.claims.exp then .error "jwt expired"
        else .ok tok.claims := by
  simp [jwtVerify, hdec]

/-- The token in a 200 reply of `/verify-otp` is the payload `{ email }` signed
under the configured secret for 2 hours from the clock reading of that request. -/
theorem verifyOtp_token (env : Env) (svc : Services) (req : Request) (s : State) (tok : String)
    (h : (verifyOtp env svc req s).reply = .sent 200 (.token tok)) :
    tok = jwtSign env.jwt env.userEmail env.secretToken 7200 svc.clock := by
  unfold verifyOtp at h
  cases hg : otpGet s.otpDB env.userEmail with
  | none => simp [hg] at h
  | some stored =>
    by_cases h0 : stored = 0
    · simp [hg, h0] at h
    · cases hs : (Obj.get req.body "otp").toStr with
      | error e => simp [hg, h0, hs] at h
      | ok submitted =>
        by_cases heq : toString stored = submitted
        · simp [hg, h0, hs, heq] at h
          exact h.symm
        · simp [hg, h0, hs, heq] at h

/-- C3: a token issued by `/verify-otp` at clock reading `t0` under the signing
secret, whose serialization round-trips and holds no space.  At every clock
reading `t < t0 + 7200` (2 hours, in the whole seconds of the token clock)
`/verify-token` replies 200 `Token verified` and the middleware, given the
header `<scheme> <token>`, hands the request with the decoded payload to the
handler; at every `t ≥ t0 + 7200` both reply 401 `Invalid token`; and a server
verifying under a different secret replies 401 at every clock reading. -/
theorem C3_token_validity (env : Env) (svc0 : Services) (req0 : Request) (s0 : State)
    (tok scheme : String)
    (hissued : (verifyOtp env svc0 req0 s0).reply = .sent 200 (.token tok))
    (hcodec : env.jwt.decode (env.jwt.encode (issuedToken env svc0.clock))
      = some (issuedToken env svc0.clock))
    (htok : ' ' ∉ tok.data) (hscheme : ' ' ∉ scheme.data)
    (svc : Services) (reqT reqA : Request) (s : State) (next : Request → State → Outcome)
    (hbody : Obj.get reqT.body "token" = JSVal.str tok)
    (hheader : reqA.authorization = some (scheme ++ " " ++ tok)) :
    (svc.clock < svc0.clock + 7200 →
      (verifyToken env svc reqT s).reply = .sent 200 (.message "Token verified") ∧
      authenticateToken env svc reqA s next
        = { outcome := next { reqA with user := some (issuedToken env svc0.clock).claims } s,
            invocations := [{ reqA with user := some (issuedToken env svc0.clock).claims }] }) ∧
    (svc0.clock + 7200 ≤ svc.clock →
      (verifyToken env svc reqT s).reply = .sent 401 (.message "Invalid token") ∧
      authenticateToken env svc reqA s next
        = { outcome := { reply := .sent 401 (.message "Invalid token"), state := s,
                         effects := [] },
            invocations := [] }) ∧
    (∀ other : Env, other.jwt = env.jwt → other.secretToken ≠ env.secretToken →
      (verifyToken other svc reqT s).reply = .sent 401 (.message "Invalid token") ∧
      authenticateToken other svc reqA s next
        = { outcome := { reply := .sent 401 (.message "Invalid token"), state := s,
                         effects := [] },
            invocations := [] }) := by
  have htokEq : tok = env.jwt.encode (issuedToken env svc0.clock) :=
    verifyOtp_token env svc0 req0 s0 tok hissued
  have hdec : env.jwt.decode tok = some (issuedToken env svc0.clock) := by
    rw [htokEq]; exact hcodec
  have hseg := jsSplitSpace_scheme_token scheme tok hscheme htok
  have hne := scheme_token_ne_empty scheme tok
  refine ⟨fun hlt => ?_, fun hge => ?_, fun other hjwt hsecret => ?_⟩
  · have hv : jwtVerify env.jwt (JSVal.str tok) env.secretToken svc.clock
        = .ok (issuedToken env svc0.clock).claims := by
      rw [jwtVerify_of_decode _ _ _ _ _ hdec]
      have : ¬ svc.clock ≥ svc0.clock + 7200 := by omega
      simp [issuedToken, this]
    constructor
    · simp [verifyToken, hbody, hv]
    · simp [authenticateToken, hheader, hne, hseg, hv]
  · have hv : jwtVerify env.jwt (JSVal.str tok) env.secretToken svc.clock
        = .error "jwt expired" := by
      rw [jwtVerify_of_decode _ _ _ _ _ hdec]
      simp [issuedToken, hge]
    constructor
    · simp [verifyToken, hbody, hv]
    · simp [authenticateToken, hheader, hne, hseg, hv]
  · have hv : jwtVerify other.jwt (JSVal.str tok) other.secretToken svc.clock
        = .error "invalid signature" := by
      rw [hjwt, jwtVerify_of_decode _ _ _ _ _ hdec]
      simp [issuedToken, Ne.symm hsecret]
    constructor
    · simp [verifyToken, hbody, hv]
    · simp [authenticateToken, hheader, hne, hseg, hv]

/-- C3 witness: the token issued at second 1000 is accepted at second 2000,
refused at second 8200, and refused by a server configured with another secret. -/
theorem C3_token_validity_witness :
    ((verifyToken sampleEnv sampleServices tokenRequest sampleState).reply
        = .sent 200 (.message "Token verified") ∧
      authenticateToken sampleEnv sampleServices sampleRequest sampleState echoUser
        = { outcome := echoUser
              { sampleRequest with
                user := some (issuedToken sampleEnv 1000).claims } sampleState,
            invocations := [{ sampleRequest with
                user := some (issuedToken sampleEnv 1000).claims }] }) ∧
    ((verifyToken sampleEnv { sampleServices with clock := 8200 } tokenRequest
          sampleState).reply = .sent 401 (.message "Invalid token") ∧
      authenticateToken sampleEnv { sampleServices with clock := 8200 } sampleRequest
          sampleState echoUser
        = { outcome := { reply := .sent 401 (.message "Invalid token"), state := sampleState,
                         effects := [] },
            invocations := [] }) ∧
    ((verifyToken { sampleEnv with secretToken := "other" } sampleServices tokenRequest
          sampleState).reply = .sent 401 (.message "Invalid token") ∧
      authenticateToken { sampleEnv with secretToken := "other" } sampleServices sampleRequest
          sampleState echoUser
        = { outcome := { reply := .sent 401 (.message "Invalid token"), state := sampleState,
                         effects := [] },
            invocations := [] }) :=
  ⟨(C3_token_validity sampleEnv { sampleServices with clock := 1000 } otpRequest otpState
      "tok" "Bearer" (by decide) (by decide) (by decide) (by decide)
      sampleServices tokenRequest sampleRequest sampleState echoUser (by decide) rfl).1
      (by decide),
   (C3_token_validity sampleEnv { sampleServices with clock := 1000 } otpRequest otpState
      "tok" "Bearer" (by decide) (by decide) (by decide) (by decide)
      { sampleServices with clock := 8200 } tokenRequest sampleRequest sampleState echoUser
      (by decide) rfl).2.1 (by decide),
   (C3_token_validity sampleEnv { sampleServices with clock := 1000 } otpRequest otpState
      "tok" "Bearer" (by decide) (by decide) (by decide) (by decide)
      sampleServices tokenRequest sampleRequest sampleState echoUser (by decide) rfl).2.2
      { sampleEnv with secretToken := "other" } rfl (by decide)⟩

/-! ### Every record the server writes is a property record -/

theorem isPropertyRecord_iff (r : Obj) :
    isPropertyRecord r = true ↔ ∀ k, k ∈ Obj.keys r → k ∈ propertyFields := by
  simp [isPropertyRecord, List.all_eq_true]

theorem isPropertyCollection_iff (db : Db) :
    isPropertyCollection db = true ↔ ∀ kr, kr ∈ db → isPropertyRecord kr.2 = true := by
  simp [isPropertyCollection, List.all_eq_true]

theorem mem_keys_set (o : Obj) (k k' : String) (v : JSVal) (h : k' ∈ Obj.keys (Obj.set o k v)) :
    k' = k ∨ k' ∈ Obj.keys o := by
  have h1 := (Obj.hasKey_eq_true_iff _ _).2 h
  rw [Obj.hasKey_set] at h1
  by_cases hk : k = k'
  · exact Or.inl hk.symm
  · right
    simp only [hk, decide_False, Bool.false_or] at h1
    exact (Obj.hasKey_eq_true_iff _ _).1 h1

theorem isPropertyRecord_storable (o : Obj) (h : isPropertyRecord o = true) :
    isPropertyRecord (storable o) = true := by
  rw [isPropertyRecord_iff] at h ⊢
  exact fun k hk => h k (keys_storable_subset o k hk)

theorem isPropertyRecord_mergeRecord (r u : Obj)
    (hr : isPropertyRecord r = true) (hu : isPropertyRecord u = true) :
    isPropertyRecord (mergeRecord r u) = true := by
  induction u generalizing r with
  | nil => exact hr
  | cons kv rest ih =>
    rw [isPropertyRecord_iff] at hu
    have hm : mergeRecord r (kv :: rest)
        = mergeRecord (if kv.2 = JSVal.null then Obj.erase r kv.1 else Obj.set r kv.1 kv.2)
            rest := rfl
    rw [hm]
    apply ih
    · rw [isPropertyRecord_iff] at hr ⊢
      intro k hk
      by_cases hn : kv.2 = JSVal.null
      · simp only [hn, if_true] at hk
        exact hr k (keys_erase_subset _ _ _ hk)
      · simp only [hn, if_false] at hk
        rcases mem_keys_set _ _ _ _ hk with rfl | hk
        · exact hu _ (by simp [Obj.keys])
        · exact hr k hk
    · rw [isPropertyRecord_iff]
      exact fun k hk => hu k (by simp only [Obj.keys, List.map_cons, List.mem_cons] at hk ⊢
                                 exact Or.inr hk)

theorem isPropertyRecord_propertyDataOf (body : Obj) (u : JSVal) :
    isPropertyRecord (propertyDataOf body u) = true := by
  rw [isPropertyRecord_iff, keys_propertyDataOf]
  exact fun _ h => h

theorem isPropertyRecord_updatesOf (body : Obj) (url : JSVal) :
    isPropertyRecord (updatesOf body url) = true := by
  unfold updatesOf
  by_cases h : url.truthy = true
  · simp [h, Obj.set, isPropertyRecord, Obj.keys, propertyFields]
  · simp [h, isPropertyRecord, Obj.keys, propertyFields]

theorem isPropertyCollection_dbSet (db : Db) (key : String) (value : Obj)
    (hdb : isPropertyCollection db = true) (hv : isPropertyRecord value = true) :
    isPropertyCollection (dbSet db key value) = true := by
  induction db with
  | nil => simpa [dbSet, isPropertyCollection] using isPropertyRecord_storable value hv
  | cons kr rest ih =>
    obtain ⟨a, r⟩ := kr
    have h1 : isPropertyRecord r = true ∧ isPropertyCollection rest = true := by
      simpa [isPropertyCollection] using hdb
    by_cases h : a = key
    · have := isPropertyRecord_storable value hv
      simp only [dbSet, h, if_true]
      simpa [isPropertyCollection, this] using h1.2
    · have := ih h1.2
      simp only [dbSet, h, if_false]
      simpa [isPropertyCollection, h1.1] using this

theorem isPropertyCollection_dbUpdate (db : Db) (id : String) (updates : Obj)
    (hdb : isPropertyCollection db = true) (hu : isPropertyRecord updates = true) :
    isPropertyCollection (dbUpdate db id updates) = true := by
  induction db with
  | nil =>
    have := isPropertyRecord_mergeRecord [] updates (by decide) hu
    simpa [dbUpdate, isPropertyCollection] using this
  | cons kr rest ih =>
    obtain ⟨a, r⟩ := kr
    have h1 : isPropertyRecord r = true ∧ isPropertyCollection rest = true := by
      simpa [isPropertyCollection] using hdb
    by_cases h : a = id
    · have := isPropertyRecord_mergeRecord r updates h1.1 hu
      simp only [dbUpdate, h, if_true]
      simpa [isPropertyCollection, this] using h1.2
    · have := ih h1.2
      simp only [dbUpdate, h, if_false]
      simpa [isPropertyCollection, h1.1] using this

theorem isPropertyCollection_dbRemove (db : Db) (id : String)
    (hdb : isPropertyCollection db = true) :
    isPropertyCollection (dbRemove db id) = true := by
  rw [dbRemove_eq_filter]
  rw [isPropertyCollection_iff] at hdb ⊢
  exact fun kr hkr => hdb kr (List.mem_filter.1 hkr).1

/-- The guarded routes keep the collection a collection of property records. -/
theorem handler_preserves_propertyCollection (route : GuardedRoute) (svc : Services)
    (req : Request) (s : State) (h : isPropertyCollection s.properties = true) :
    isPropertyCollection (route.handler svc req s).state.properties = true := by
  cases route with
  | postProperties =>
    simp only [GuardedRoute.handler, postProperties]
    cases req.image with
    | none => exact h
    | some image =>
      cases svc.putUrl with
      | none => exact h
      | some u =>
        by_cases hu : u.truthy = true
        · by_cases hw : writeResolves svc (propertyDataOf req.body u) = true
          · simpa [hu, hw] using
              isPropertyCollection_dbSet _ svc.pushKey _ h (isPropertyRecord_propertyDataOf _ u)
          · simpa [hu, hw] using h
        · simpa [hu] using h
  | getProperties =>
    simp only [GuardedRoute.handler, getProperties]
    by_cases hr : svc.dbReadOk = true <;> simpa [hr] using h
  | getProperty =>
    simp only [GuardedRoute.handler, getProperty]
    by_cases hr : svc.dbReadOk = true <;> simpa [hr] using h
  | putProperty =>
    simp only [GuardedRoute.handler]
    rcases putProperty_properties svc req s with hp | ⟨url, _, hp⟩
    · rw [hp]; exact h
    · rw [hp]
      exact isPropertyCollection_dbUpdate _ _ _ h (isPropertyRecord_updatesOf _ url)
  | deleteProperty =>
    simp only [GuardedRoute.handler, deleteProperty]
    by_cases hr : svc.dbReadOk = true
    · cases dbGet s.properties req.id with
      | none => simpa [hr] using h
      | some r =>
        by_cases hw : svc.dbWriteOk = true
        · simpa [hr, hw] using isPropertyCollection_dbRemove _ req.id h
        · simpa [hr, hw] using h
    · simpa [hr] using h

/-- Every request to a guarded route keeps the collection a collection of
property records. -/
theorem serve_preserves_propertyCollection (env : Env) (svc : Services) (route : GuardedRoute)
    (req : Request) (s : State) (h : isPropertyCollection s.properties = true) :
    isPropertyCollection (serve env svc route req s).outcome.state.properties = true := by
  unfold serve authenticateToken
  cases req.authorization with
  | none => exact h
  | some header =>
    by_cases hh : header = ""
    · simpa [hh] using h
    · simp only [hh, if_false]
      cases jwtVerify env.jwt (jsIndex (jsSplitSpace header) 1) env.secretToken svc.clock with
      | error e => exact h
      | ok decoded => exact handler_preserves_propertyCollection route svc _ s h

/-- A property record has no property named `id`: for the records the server
writes, the listed `id` is the key of the record. -/
theorem hasKey_id_of_isPropertyRecord (r : Obj) (h : isPropertyRecord r = true) :
    Obj.hasKey r "id" = false := by
  cases hk : Obj.hasKey r "id" with
  | false => rfl
  | true =>
    have hmem := (Obj.hasKey_eq_true_iff r "id").1 hk
    have := (isPropertyRecord_iff r).1 h "id" hmem
    simp [propertyFields] at this

end MangiBackend
